import Mathlib

/-!
Shallow embedding of the MPMC packet queue from src/mpmc_packet_queue.h,
together with proofs about its sequential (single-threaded, uninterleaved)
semantics.  Machine integers (size_t, uint64_t) are modelled as Nat; in a
sequential execution every cursor and sequence counter stays far below
2^63, so the signed 64-bit difference computed by the source
(static_cast<intptr_t>(seq) - static_cast<intptr_t>(cursor)) coincides
with ordinary integer comparison of the Nat values, which is how the
branch tests below are written.  In a single-threaded execution a
compare_exchange on a cursor always succeeds (no other thread can have
changed the cursor between the load and the CAS), so the CAS branches are
embedded as unconditional updates; the retry branches of the loops are
kept and driven by an explicit fuel parameter, and termination within one
iteration is proved, not assumed.
-/

namespace PQ

/-- enum class PacketPriority : uint8_t { Low = 0, Medium = 1, High = 2, Control = 3 } -/
inductive PacketPriority where
  | Low
  | Medium
  | High
  | Control
deriving DecidableEq, Repr

/-- Ordinal value of a priority tag (its uint8_t representation). -/
def PacketPriority.toOrdinal : PacketPriority → Nat
  | .Low => 0
  | .Medium => 1
  | .High => 2
  | .Control => 3

/-- struct Packet.  The payload pointer `data` is modelled as an address
(a Nat), 0 standing for nullptr; the queue only copies and moves it. -/
structure Packet where
  data : Nat
  length : Nat
  priority : PacketPriority
  id : Nat
deriving DecidableEq, Repr

/-- The default-constructed (zero-state) packet: all members use their
default member initializers. -/
instance : Inhabited Packet := ⟨⟨0, 0, .Low, 0⟩⟩

/-- Packet(size_t i): the constructor for testing, setting only id. -/
def Packet.withId (i : Nat) : Packet := { data := 0, length := 0, priority := .Low, id := i }

/-- The state a Packet is left in after being moved from, per the move
constructor and move assignment operator: data, length and id are zeroed;
the priority member is NOT touched by either move operation. -/
def Packet.movedFrom (p : Packet) : Packet :=
  { data := 0, length := 0, priority := p.priority, id := 0 }

/-- void Packet::reset(): returns the packet to the default zero state
(this one does reset the priority to Low). -/
def Packet.reset (_ : Packet) : Packet := ⟨0, 0, .Low, 0⟩

/-- bool Packet::is_valid(): data != nullptr && length > 0. -/
def Packet.is_valid (p : Packet) : Bool := p.data ≠ 0 && p.length > 0

/-- struct QueueStats: the seven uint64_t counters. -/
structure QueueStats where
  enqueue_attempts : Nat
  enqueue_successes : Nat
  dequeue_attempts : Nat
  dequeue_successes : Nat
  batch_enqueues : Nat
  batch_dequeues : Nat
  contention_events : Nat
deriving DecidableEq, Repr

instance : Inhabited QueueStats := ⟨⟨0, 0, 0, 0, 0, 0, 0⟩⟩

/-- struct Slot: one packet value paired with its sequence counter.
(The cache-line padding has no behavioural content and is omitted.) -/
structure Slot where
  packet : Packet
  seq : Nat
deriving DecidableEq, Repr

instance : Inhabited Slot := ⟨⟨default, 0⟩⟩

/-- class MPMC_PacketQueue: capacity_, buffer_, head_seq_, tail_seq_,
enable_stats_ and stats_.  mask_ is capacity_ - 1, recomputed on use. -/
structure Queue where
  capacity : Nat
  buffer : List Slot
  head : Nat
  tail : Nat
  enable_stats : Bool
  stats : QueueStats
deriving DecidableEq, Repr

/-- SIZE_MAX for the 64-bit size_t used by the source. -/
def SIZE_MAX : Nat := 2 ^ 64 - 1

/-- Floor of the base-2 logarithm of a value below 2^w, computed by
structural recursion on the bit width w so that it evaluates
definitionally; log2Fuel 64 x = Nat.log2 x for every 64-bit x
(lemma log2Fuel_eq below). -/
def log2Fuel : Nat → Nat → Nat
  | 0, _ => 0
  | w + 1, x => if 2 ≤ x then log2Fuel w (x / 2) + 1 else 0

/-- static constexpr size_t round_up_to_power_of_two(size_t v).
For 1 ≤ v - 1 < 2^64 the GCC builtin path computes
size_t(1) << (64 - __builtin_clzll(v - 1)), and
64 - __builtin_clzll(x) = log2 x + 1 for a 64-bit x ≠ 0. -/
def round_up_to_power_of_two (v : Nat) : Nat :=
  if v ≤ 1 then 2
  else if SIZE_MAX >>> 1 < v then SIZE_MAX
  else 2 ^ (log2Fuel 64 (v - 1) + 1)

/-- The constructor MPMC_PacketQueue(capacity, enable_stats): none models
a thrown std::invalid_argument (capacity == 0, or rounded capacity beyond
SIZE_MAX >> 1); otherwise each slot i starts with seq = i and
head = tail = 0. -/
def mkQueue (capacity : Nat) (enable_stats : Bool) : Option Queue :=
  let cap := round_up_to_power_of_two capacity
  if capacity = 0 then none
  else if SIZE_MAX >>> 1 < cap then none
  else some
    { capacity := cap
      buffer := (List.range cap).map fun i => { packet := default, seq := i }
      head := 0
      tail := 0
      enable_stats := enable_stats
      stats := default }

/-- What one invocation of the Backoff policy does, observably. -/
inductive BackoffAction where
  | spin (pauses : Nat)
  | yield
  | sleep (micros : Nat)
deriving DecidableEq, Repr

/-- void MPMC_PacketQueue::Backoff::operator()().  MAX_SPINS = 16 and
MAX_YIELDS = 64; count_ is the int step counter (never negative, so a
Nat).  Returns the action performed and the new value of count_; note
the terminal sleep branch does not touch count_. -/
def backoffStep (count_ : Nat) : BackoffAction × Nat :=
  if count_ < 16 then (.spin (2 ^ count_), count_ + 1)
  else if count_ < 16 + 64 then (.yield, count_ + 1)
  else (.sleep 1, count_)

/-- void Backoff::reset(): count_ = 0. -/
def backoffReset : Nat := 0

/-- The specification's next_power_of_two: the least power of two that
is at least n (stated from the spec's words, for comparison with the
source's round_up_to_power_of_two). -/
def next_power_of_two_spec (n : Nat) : Nat := 2 ^ Nat.clog 2 n

/-- mask_ = capacity_ - 1. -/
def Queue.mask (q : Queue) : Nat := q.capacity - 1

/-- buffer_[c & mask_]: the slot a cursor value c addresses. -/
def getSlot (q : Queue) (c : Nat) : Slot := q.buffer.getD (c &&& q.mask) default

/-- Store a slot at the position a cursor value c addresses. -/
def setSlot (q : Queue) (c : Nat) (s : Slot) : Queue :=
  { q with buffer := q.buffer.set (c &&& q.mask) s }

/-- Apply a stats update if and only if enable_stats_ is set; every
counter mutation in the source is guarded exactly like this. -/
def withStats (f : QueueStats → QueueStats) (q : Queue) : Queue :=
  if q.enable_stats then { q with stats := f q.stats } else q

def bumpEnqAttempts (st : QueueStats) : QueueStats :=
  { st with enqueue_attempts := st.enqueue_attempts + 1 }

def bumpEnqSuccesses (st : QueueStats) : QueueStats :=
  { st with enqueue_successes := st.enqueue_successes + 1 }

def bumpDeqAttempts (st : QueueStats) : QueueStats :=
  { st with dequeue_attempts := st.dequeue_attempts + 1 }

def bumpDeqSuccesses (st : QueueStats) : QueueStats :=
  { st with dequeue_successes := st.dequeue_successes + 1 }

def bumpBatchEnqueues (st : QueueStats) : QueueStats :=
  { st with batch_enqueues := st.batch_enqueues + 1 }

def bumpBatchDequeues (st : QueueStats) : QueueStats :=
  { st with batch_dequeues := st.batch_dequeues + 1 }

def bumpContention (st : QueueStats) : QueueStats :=
  { st with contention_events := st.contention_events + 1 }

/-- size_t MPMC_PacketQueue::size(): tail - head (size_t subtraction;
in every sequentially reachable state head ≤ tail, so Nat subtraction
agrees with the source's modular subtraction). -/
def Queue.size (q : Queue) : Nat := q.tail - q.head

/-- size_t MPMC_PacketQueue::capacity(). -/
def Queue.capacityFn (q : Queue) : Nat := q.capacity

/-- bool MPMC_PacketQueue::empty(): size() == 0. -/
def Queue.emptyFn (q : Queue) : Bool := q.size = 0

/-- bool MPMC_PacketQueue::full(): size() >= capacity_. -/
def Queue.fullFn (q : Queue) : Bool := q.capacity ≤ q.size

/-- The while(true) body of bool enqueue(const Packet&).  The three
branches are diff == 0 (slot ready: CAS tail, write packet, publish
seq = t + 1), diff < 0 (possibly full: definitive check against head,
else contention accounting and retry) and diff > 0 (stale cursor:
retry).  Fuel bounds the number of iterations; none = fuel exhausted. -/
def enqueueLoop : Nat → Queue → Packet → Option (Bool × Queue)
  | 0, _, _ => none
  | fuel + 1, q, p =>
    let t := q.tail
    let slot := getSlot q t
    if slot.seq = t then
      some (true, withStats bumpEnqSuccesses
        { setSlot q t { packet := p, seq := t + 1 } with tail := t + 1 })
    else if slot.seq < t then
      if q.capacity ≤ t - q.head then some (false, q)
      else enqueueLoop fuel (withStats bumpContention q) p
    else
      enqueueLoop fuel q p

/-- bool MPMC_PacketQueue::enqueue(const Packet& packet).  (The Packet&&
overload leaves the identical queue state; it differs only in zeroing
the caller's argument.) -/
def enqueue (fuel : Nat) (q : Queue) (p : Packet) : Option (Bool × Queue) :=
  enqueueLoop fuel (withStats bumpEnqAttempts q) p

/-- The while(true) body of std::optional<Packet> dequeue(); diff is
seq - (head + 1).  On success the packet is moved out of the slot and
the slot is released with seq = head + capacity_. -/
def dequeueLoop : Nat → Queue → Option (Option Packet × Queue)
  | 0, _ => none
  | fuel + 1, q =>
    let h := q.head
    let slot := getSlot q h
    if slot.seq = h + 1 then
      some (some slot.packet, withStats bumpDeqSuccesses
        { setSlot q h { packet := slot.packet.movedFrom, seq := h + q.capacity } with
            head := h + 1 })
    else if slot.seq < h + 1 then
      if q.tail ≤ h then some (none, q)
      else dequeueLoop fuel (withStats bumpContention q)
    else
      dequeueLoop fuel q

/-- std::optional<Packet> MPMC_PacketQueue::dequeue(). -/
def dequeue (fuel : Nat) (q : Queue) : Option (Option Packet × Queue) :=
  dequeueLoop fuel (withStats bumpDeqAttempts q)

/-- bool MPMC_PacketQueue::try_enqueue(const Packet&): one attempt, no
backoff, no stats; compare_exchange_strong succeeds sequentially. -/
def try_enqueue (q : Queue) (p : Packet) : Bool × Queue :=
  let t := q.tail
  let slot := getSlot q t
  if slot.seq = t then
    (true, { setSlot q t { packet := p, seq := t + 1 } with tail := t + 1 })
  else (false, q)

/-- std::optional<Packet> MPMC_PacketQueue::try_dequeue(). -/
def try_dequeue (q : Queue) : Option Packet × Queue :=
  let h := q.head
  let slot := getSlot q h
  if slot.seq = h + 1 then
    (some slot.packet,
      { setSlot q h { packet := slot.packet.movedFrom, seq := h + q.capacity } with
          head := h + 1 })
  else (none, q)

/-- The slot-filling inner loop of enqueue_batch: for each reserved
cursor position, wait until slot.seq == position (sequentially: require
it, else the source would spin forever, modelled as none), assign the
packet, publish seq = position + 1. -/
def fillSlots : Queue → Nat → List Packet → Option Queue
  | q, _, [] => some q
  | q, t, p :: rest =>
    let slot := getSlot q t
    if slot.seq = t then
      fillSlots (setSlot q t { packet := p, seq := t + 1 }) (t + 1) rest
    else none

/-- The outer reservation loop of size_t enqueue_batch(span<const Packet>):
while not all packets are enqueued, snapshot tail and head, break when
tail - head >= capacity_, otherwise reserve
batch_size = min(remaining, capacity_ - (tail - head)) slots by CAS
(sequentially always successful) and fill them.  The explicit fuel
bounds the number of outer iterations (none = fuel exhausted); every
successful iteration consumes at least one packet, so input length + 1
iterations always suffice, which is proved below, not assumed. -/
def enqueueBatchGo : Nat → Queue → List Packet → Nat → Option (Nat × Queue)
  | 0, _, _, _ => none
  | fuel + 1, q, ps, count =>
    if ps.isEmpty then some (count, q)
    else
      let t := q.tail
      let h := q.head
      if q.capacity ≤ t - h then some (count, q)
      else
        let available_space := q.capacity - (t - h)
        let batch_size := min ps.length available_space
        if batch_size = 0 then none
        else
          match fillSlots { q with tail := t + batch_size } t (ps.take batch_size) with
          | none => none
          | some q2 => enqueueBatchGo fuel q2 (ps.drop batch_size) (count + batch_size)

/-- size_t MPMC_PacketQueue::enqueue_batch(my_std::span<const Packet>). -/
def enqueue_batch (q : Queue) (ps : List Packet) : Option (Nat × Queue) :=
  if ps.isEmpty then some (0, q)
  else enqueueBatchGo (ps.length + 1) (withStats bumpBatchEnqueues q) ps 0

/-- The slot-draining inner loop of dequeue_batch: for each reserved
cursor position, wait until slot.seq == position + 1 (sequentially:
require it), move the packet out (leaving the moved-from remnant in the
slot) and release the slot with seq = position + capacity_. -/
def drainSlots : Queue → Nat → Nat → Option (List Packet × Queue)
  | q, _, 0 => some ([], q)
  | q, h, k + 1 =>
    let slot := getSlot q h
    if slot.seq = h + 1 then
      match drainSlots
          (setSlot q h { packet := slot.packet.movedFrom, seq := h + q.capacity })
          (h + 1) k with
      | none => none
      | some (out, q2) => some (slot.packet :: out, q2)
    else none

/-- The outer reservation loop of size_t dequeue_batch(my_std::span<Packet>):
remaining is the writable space left in the caller's buffer.  Fuel as in
enqueueBatchGo; buffer length + 1 iterations always suffice. -/
def dequeueBatchGo : Nat → Queue → Nat → Nat → Option (Nat × List Packet × Queue)
  | 0, _, _, _ => none
  | fuel + 1, q, remaining, count =>
    if remaining = 0 then some (count, [], q)
    else
      let h := q.head
      let t := q.tail
      if t ≤ h then some (count, [], q)
      else
        let available := t - h
        let batch_size := min remaining available
        if batch_size = 0 then none
        else
          match drainSlots { q with head := h + batch_size } h batch_size with
          | none => none
          | some (out, q2) =>
            match dequeueBatchGo fuel q2 (remaining - batch_size) (count + batch_size) with
            | none => none
            | some (count2, out2, q3) => some (count2, out ++ out2, q3)

/-- size_t MPMC_PacketQueue::dequeue_batch(my_std::span<Packet> packets):
bufLen models packets.size(); the returned list is the prefix of the
caller's buffer that the call overwrote, in order. -/
def dequeue_batch (q : Queue) (bufLen : Nat) : Option (Nat × List Packet × Queue) :=
  if bufLen = 0 then some (0, [], q)
  else dequeueBatchGo (bufLen + 1) (withStats bumpBatchDequeues q) bufLen 0

/-- One queue call in a sequential history. -/
inductive Op where
  | enq (p : Packet)
  | deq
  | tryEnq (p : Packet)
  | tryDeq
  | enqBatch (ps : List Packet)
  | deqBatch (bufLen : Nat)
deriving DecidableEq, Repr

/-- The observable result of one call. -/
inductive OpResult where
  | ok (b : Bool)
  | got (p : Option Packet)
  | enqCnt (n : Nat)
  | deqCnt (n : Nat) (ps : List Packet)
deriving DecidableEq, Repr

/-- Execute one call.  The blocking loops get fuel 1: it is proved below
that from every sequentially reachable state one iteration decides, so
no real sequential execution is cut off by this choice. -/
def applyOp (q : Queue) : Op → Option (OpResult × Queue)
  | .enq p => (enqueue 1 q p).map fun r => (.ok r.1, r.2)
  | .deq => (dequeue 1 q).map fun r => (.got r.1, r.2)
  | .tryEnq p => some (.ok (try_enqueue q p).1, (try_enqueue q p).2)
  | .tryDeq => some (.got (try_dequeue q).1, (try_dequeue q).2)
  | .enqBatch ps => (enqueue_batch q ps).map fun r => (.enqCnt r.1, r.2)
  | .deqBatch n => (dequeue_batch q n).map fun r => (.deqCnt r.1 r.2.1, r.2.2)

/-- Execute a sequential history of calls, collecting the results. -/
def runTrace (q : Queue) : List Op → Option (List OpResult × Queue)
  | [] => some ([], q)
  | op :: ops =>
    match applyOp q op with
    | none => none
    | some (r, q') =>
      match runTrace q' ops with
      | none => none
      | some (rs, qf) => some (r :: rs, qf)

/-- Elements a result reports as having entered the queue. -/
def resAdded : OpResult → Nat
  | .ok b => bif b then 1 else 0
  | .enqCnt n => n
  | _ => 0

/-- Elements a result reports as having left the queue. -/
def resRemoved : OpResult → Nat
  | .got p => bif p.isSome then 1 else 0
  | .deqCnt n _ => n
  | _ => 0

def addedTotal (rs : List OpResult) : Nat := (rs.map resAdded).sum

def removedTotal (rs : List OpResult) : Nat := (rs.map resRemoved).sum

/-! ### Basic list access lemmas -/

lemma getD_set_self {α : Type} : ∀ (l : List α) (i : Nat), i < l.length →
    ∀ (a d : α), (l.set i a).getD i d = a
  | _ :: _, 0, _, _, _ => rfl
  | _ :: xs, i + 1, h, a, d => getD_set_self xs i (Nat.lt_of_succ_lt_succ h) a d

lemma getD_set_ne {α : Type} : ∀ (l : List α) (i j : Nat), i ≠ j →
    ∀ (a d : α), (l.set i a).getD j d = l.getD j d
  | [], _, _, _, _, _ => rfl
  | _ :: _, 0, 0, hij, _, _ => absurd rfl hij
  | _ :: _, 0, _ + 1, _, _, _ => rfl
  | _ :: _, _ + 1, 0, _, _, _ => rfl
  | _ :: xs, i + 1, j + 1, hij, a, d =>
    getD_set_ne xs i j (fun h => hij (by rw [h])) a d

lemma getD_range_map {α : Type} (f : Nat → α) : ∀ (n i : Nat), i < n →
    ∀ (d : α), (((List.range n).map f).getD i d) = f i := by
  intro n i hi d
  have hlen : i < ((List.range n).map f).length := by simpa using hi
  rw [List.getD_eq_getElem _ _ hlen]
  simp

/-! ### Field lemmas for the state combinators -/

@[simp] lemma withStats_capacity (f : QueueStats → QueueStats) (q : Queue) :
    (withStats f q).capacity = q.capacity := by
  unfold withStats; split <;> rfl

@[simp] lemma withStats_buffer (f : QueueStats → QueueStats) (q : Queue) :
    (withStats f q).buffer = q.buffer := by
  unfold withStats; split <;> rfl

@[simp] lemma withStats_head (f : QueueStats → QueueStats) (q : Queue) :
    (withStats f q).head = q.head := by
  unfold withStats; split <;> rfl

@[simp] lemma withStats_tail (f : QueueStats → QueueStats) (q : Queue) :
    (withStats f q).tail = q.tail := by
  unfold withStats; split <;> rfl

@[simp] lemma withStats_enable (f : QueueStats → QueueStats) (q : Queue) :
    (withStats f q).enable_stats = q.enable_stats := by
  unfold withStats; split <;> rfl

@[simp] lemma withStats_mask (f : QueueStats → QueueStats) (q : Queue) :
    (withStats f q).mask = q.mask := by
  unfold Queue.mask; rw [withStats_capacity]

@[simp] lemma setSlot_capacity (q : Queue) (c : Nat) (s : Slot) :
    (setSlot q c s).capacity = q.capacity := rfl

@[simp] lemma setSlot_head (q : Queue) (c : Nat) (s : Slot) :
    (setSlot q c s).head = q.head := rfl

@[simp] lemma setSlot_tail (q : Queue) (c : Nat) (s : Slot) :
    (setSlot q c s).tail = q.tail := rfl

@[simp] lemma setSlot_enable (q : Queue) (c : Nat) (s : Slot) :
    (setSlot q c s).enable_stats = q.enable_stats := rfl

@[simp] lemma setSlot_stats (q : Queue) (c : Nat) (s : Slot) :
    (setSlot q c s).stats = q.stats := rfl

lemma setSlot_buffer (q : Queue) (c : Nat) (s : Slot) :
    (setSlot q c s).buffer = q.buffer.set (c &&& q.mask) s := rfl

@[simp] lemma setSlot_buffer_length (q : Queue) (c : Nat) (s : Slot) :
    (setSlot q c s).buffer.length = q.buffer.length := by
  rw [setSlot_buffer, List.length_set]

@[simp] lemma getSlot_withStats (f : QueueStats → QueueStats) (q : Queue) (c : Nat) :
    getSlot (withStats f q) c = getSlot q c := by
  unfold getSlot; rw [withStats_buffer, withStats_mask]

/-! ### The ring geometry: sequence windows -/

/-- The sequence counter of the slot a cursor position c addresses
(index arithmetic in its mod form). -/
def seqIn (buf : List Slot) (cap c : Nat) : Nat := (buf.getD (c % cap) default).seq

/-- Cursor positions [h, t) hold published data: seq = position + 1. -/
def fullWin (buf : List Slot) (cap h t : Nat) : Prop :=
  ∀ c, h ≤ c → c < t → seqIn buf cap c = c + 1

/-- Cursor positions [t, h + cap) are free for producers: seq = position. -/
def empWin (buf : List Slot) (cap h t : Nat) : Prop :=
  ∀ c, t ≤ c → c < h + cap → seqIn buf cap c = c

/-- The sequential well-formedness invariant of a queue state: size
bounds on the cursors and the per-slot sequence discipline of §4.5. -/
structure WF (q : Queue) : Prop where
  hlen : q.buffer.length = q.capacity
  hcap2 : 2 ≤ q.capacity
  hpow : q.capacity = 2 ^ Nat.log2 q.capacity
  hht : q.head ≤ q.tail
  hth : q.tail ≤ q.head + q.capacity
  hfull : fullWin q.buffer q.capacity q.head q.tail
  hemp : empWin q.buffer q.capacity q.head q.tail

lemma WF.hcap0 {q : Queue} (hwf : WF q) : 0 < q.capacity :=
  Nat.lt_of_lt_of_le (by omega) hwf.hcap2

/-- With a power-of-two capacity the source's index mask agrees with
taking the cursor mod the capacity. -/
lemma mask_mod (q : Queue) (hpow : q.capacity = 2 ^ Nat.log2 q.capacity) (c : Nat) :
    c &&& q.mask = c % q.capacity := by
  unfold Queue.mask
  conv_lhs => rw [hpow]
  rw [Nat.and_pow_two_sub_one_eq_mod, ← hpow]

lemma getSlot_eq_seqIn (q : Queue) (hpow : q.capacity = 2 ^ Nat.log2 q.capacity) (c : Nat) :
    getSlot q c = q.buffer.getD (c % q.capacity) default := by
  unfold getSlot; rw [mask_mod q hpow]

lemma getSlot_seq (q : Queue) (hpow : q.capacity = 2 ^ Nat.log2 q.capacity) (c : Nat) :
    (getSlot q c).seq = seqIn q.buffer q.capacity c := by
  rw [getSlot_eq_seqIn q hpow]; rfl

lemma setSlot_buffer_mod (q : Queue) (hpow : q.capacity = 2 ^ Nat.log2 q.capacity)
    (c : Nat) (s : Slot) :
    (setSlot q c s).buffer = q.buffer.set (c % q.capacity) s := by
  rw [setSlot_buffer, mask_mod q hpow]

lemma seqIn_set (buf : List Slot) (cap : Nat) (hlen : buf.length = cap) (hcap : 0 < cap)
    (c c' : Nat) (s : Slot) :
    seqIn (buf.set (c % cap) s) cap c' =
      if c' % cap = c % cap then s.seq else seqIn buf cap c' := by
  unfold seqIn
  by_cases h : c' % cap = c % cap
  · rw [if_pos h, h, getD_set_self]
    rw [hlen]; exact Nat.mod_lt _ hcap
  · rw [if_neg h, getD_set_ne]
    intro heq; exact h heq.symm

/-- Two cursor positions within one revolution of the ring address the
same physical slot only if they are equal. -/
lemma mod_inj_of_window {cap a b : Nat} (hab : a ≤ b) (hba : b - a < cap)
    (h : a % cap = b % cap) : a = b := by
  have hd : cap ∣ b - a := (Nat.modEq_iff_dvd' hab).mp h
  have hz : b - a = 0 := Nat.eq_zero_of_dvd_of_lt hd hba
  omega

/-- Publishing a packet at the tail position extends the full window. -/
lemma push_win {buf : List Slot} {cap h t : Nat} (hlen : buf.length = cap) (hcap : 0 < cap)
    (hht : h ≤ t) (hlt : t < h + cap)
    (hfull : fullWin buf cap h t) (hemp : empWin buf cap h t) (s : Slot) (hs : s.seq = t + 1) :
    fullWin (buf.set (t % cap) s) cap h (t + 1) ∧
      empWin (buf.set (t % cap) s) cap h (t + 1) := by
  constructor
  · intro c hc1 hc2
    rw [seqIn_set buf cap hlen hcap t c s]
    by_cases hceq : c = t
    · rw [if_pos (by rw [hceq]), hs, hceq]
    · have hct : c < t := by omega
      have hne : ¬ c % cap = t % cap := fun hmod =>
        hceq (mod_inj_of_window (by omega) (by omega) hmod)
      rw [if_neg hne]
      exact hfull c hc1 hct
  · intro c hc1 hc2
    rw [seqIn_set buf cap hlen hcap t c s]
    have hne : ¬ c % cap = t % cap := fun hmod =>
      (by omega : ¬ t = c) (mod_inj_of_window (by omega) (by omega) hmod.symm)
    rw [if_neg hne]
    exact hemp c (by omega) hc2

/-- Consuming the packet at the head position advances the head of the
full window and recycles the slot for the next revolution. -/
lemma pop_win {buf : List Slot} {cap h t : Nat} (hlen : buf.length = cap) (hcap : 0 < cap)
    (hlt : h < t) (hth : t ≤ h + cap)
    (hfull : fullWin buf cap h t) (hemp : empWin buf cap h t) (s : Slot)
    (hs : s.seq = h + cap) :
    fullWin (buf.set (h % cap) s) cap (h + 1) t ∧
      empWin (buf.set (h % cap) s) cap (h + 1) t := by
  constructor
  · intro c hc1 hc2
    rw [seqIn_set buf cap hlen hcap h c s]
    have hne : ¬ c % cap = h % cap := fun hmod =>
      (by omega : ¬ h = c) (mod_inj_of_window (by omega) (by omega) hmod.symm)
    rw [if_neg hne]
    exact hfull c (by omega) hc2
  · intro c hc1 hc2
    rw [seqIn_set buf cap hlen hcap h c s]
    by_cases hceq : c = h + cap
    · have : c % cap = h % cap := by rw [hceq, Nat.add_mod_right]
      rw [if_pos this, hs, hceq]
    · have hcc : c < h + cap := by omega
      have hne : ¬ c % cap = h % cap := fun hmod =>
        (by omega : ¬ h = c) (mod_inj_of_window (by omega) (by omega) hmod.symm)
      rw [if_neg hne]
      exact hemp c hc1 hcc

/-! ### Construction facts -/

lemma log2_two_pow (k : Nat) : Nat.log2 (2 ^ k) = k := by
  rw [Nat.log2_eq_log_two, Nat.log_pow (by norm_num)]

/-- The fuel-driven log2 agrees with Nat.log2 on values below 2^w. -/
lemma log2Fuel_eq : ∀ (w x : Nat), x < 2 ^ w → log2Fuel w x = Nat.log2 x
  | 0, x, hx => by
    have hx0 : x = 0 := by omega
    subst hx0
    rw [Nat.log2]
    rfl
  | w + 1, x, hx => by
    by_cases h2 : 2 ≤ x
    · have hdiv : x / 2 < 2 ^ w := by
        rw [pow_succ] at hx
        omega
      show (if 2 ≤ x then log2Fuel w (x / 2) + 1 else 0) = Nat.log2 x
      rw [if_pos h2, log2Fuel_eq w (x / 2) hdiv]
      conv_rhs => rw [Nat.log2]
      rw [if_pos h2]
    · show (if 2 ≤ x then log2Fuel w (x / 2) + 1 else 0) = Nat.log2 x
      rw [if_neg h2]
      rw [Nat.log2]
      rw [if_neg h2]

lemma shiftRight_SIZE_MAX : SIZE_MAX >>> 1 = 2 ^ 63 - 1 := by decide

/-- Whenever construction accepts, the rounded capacity is a power of two
and at least 2. -/
lemma round_up_pow {v : Nat} (hacc : ¬ SIZE_MAX >>> 1 < round_up_to_power_of_two v) :
    round_up_to_power_of_two v = 2 ^ Nat.log2 (round_up_to_power_of_two v) ∧
      2 ≤ round_up_to_power_of_two v := by
  unfold round_up_to_power_of_two at *
  by_cases h1 : v ≤ 1
  · rw [if_pos h1]
    refine ⟨?_, le_rfl⟩
    have h2 := log2_two_pow 1
    norm_num at h2
    rw [h2]
    norm_num
  · rw [if_neg h1] at *
    by_cases h2 : SIZE_MAX >>> 1 < v
    · rw [if_pos h2] at hacc
      exfalso
      apply hacc
      rw [shiftRight_SIZE_MAX]
      unfold SIZE_MAX
      omega
    · rw [if_neg h2]
      constructor
      · rw [log2_two_pow]
      · calc (2 : Nat) = 2 ^ 1 := rfl
          _ ≤ 2 ^ (log2Fuel 64 (v - 1) + 1) := Nat.pow_le_pow_right (by omega) (by omega)

/-- What a successful construction yields, read off the constructor. -/
lemma mkQueue_some {n : Nat} {s : Bool} {q : Queue} (h : mkQueue n s = some q) :
    q.capacity = round_up_to_power_of_two n ∧ q.head = 0 ∧ q.tail = 0 ∧
      q.enable_stats = s ∧ q.stats = default ∧
      q.buffer = (List.range q.capacity).map (fun i => { packet := default, seq := i }) ∧
      n ≠ 0 ∧ ¬ SIZE_MAX >>> 1 < q.capacity := by
  unfold mkQueue at h
  by_cases h0 : n = 0
  · rw [if_pos h0] at h
    exact absurd h (by simp)
  · rw [if_neg h0] at h
    by_cases h1 : SIZE_MAX >>> 1 < round_up_to_power_of_two n
    · rw [if_pos h1] at h
      exact absurd h (by simp)
    · rw [if_neg h1] at h
      have hq := (Option.some_inj.mp h).symm
      subst hq
      exact ⟨rfl, rfl, rfl, rfl, rfl, rfl, h0, h1⟩

/-- A freshly constructed queue is well-formed. -/
lemma WF_mkQueue {n : Nat} {s : Bool} {q : Queue} (h : mkQueue n s = some q) : WF q := by
  obtain ⟨hcap, hh, ht, _, _, hbuf, _, hacc⟩ := mkQueue_some h
  have hp := round_up_pow (v := n) (by rw [← hcap]; exact hacc)
  rw [← hcap] at hp
  refine ⟨?_, hp.2, hp.1, by omega, by omega, ?_, ?_⟩
  · rw [hbuf]; simp
  · intro c hc1 hc2
    omega
  · intro c hc1 hc2
    rw [hh] at hc2
    unfold seqIn
    rw [hbuf, Nat.mod_eq_of_lt (by omega), getD_range_map _ _ _ (by omega)]

/-! ### Statistics bookkeeping -/

/-- The stats invariant of interest: successes never exceed attempts. -/
def statsOk (st : QueueStats) : Prop :=
  st.enqueue_successes ≤ st.enqueue_attempts ∧
    st.dequeue_successes ≤ st.dequeue_attempts

lemma WF_withStats {q : Queue} (f : QueueStats → QueueStats) (hwf : WF q) :
    WF (withStats f q) := by
  obtain ⟨h1, h2, h3, h4, h5, h6, h7⟩ := hwf
  exact ⟨by simpa using h1, by simpa using h2, by simpa using h3, by simpa using h4,
    by simpa using h5, by simpa using h6, by simpa using h7⟩

/-! ### The single-element operations from a well-formed state -/

/-- At a full queue (tail = head + capacity) the slot addressed by the
tail still carries the consumer-phase sequence head + 1 of the previous
revolution. -/
lemma seqIn_at_full {q : Queue} (hwf : WF q) (hfull : q.tail = q.head + q.capacity) :
    seqIn q.buffer q.capacity q.tail = q.head + 1 := by
  unfold seqIn
  rw [hfull, Nat.add_mod_right]
  exact hwf.hfull q.head le_rfl (by have := hwf.hcap0; omega)

lemma withStats_stats (f : QueueStats → QueueStats) (q : Queue) :
    (withStats f q).stats = if q.enable_stats then f q.stats else q.stats := by
  unfold withStats; split <;> simp_all

/-- bool enqueue(const Packet&) from a well-formed state: it decides in
the first loop iteration for every fuel bound, returns true and appends
exactly when the queue is not full, and on false leaves everything but
the attempt counter untouched. -/
lemma enqueue_total {q : Queue} (hwf : WF q) (p : Packet) (fuel : Nat) :
    ∃ b q', enqueue (fuel + 1) q p = some (b, q') ∧ WF q' ∧
      q'.capacity = q.capacity ∧ q'.enable_stats = q.enable_stats ∧
      q'.head = q.head ∧ q'.tail = q.tail + (bif b then 1 else 0) ∧
      (b = true ↔ q.tail - q.head < q.capacity) ∧
      (b = false → q' = withStats bumpEnqAttempts q) ∧
      (statsOk q.stats → statsOk q'.stats) := by
  have hwf1 : WF (withStats bumpEnqAttempts q) := WF_withStats _ hwf
  have hstats1 : statsOk q.stats → statsOk (withStats bumpEnqAttempts q).stats := by
    rw [withStats_stats]
    split
    · intro hok
      exact ⟨Nat.le_succ_of_le hok.1, hok.2⟩
    · exact id
  unfold enqueue
  by_cases hnf : q.tail < q.head + q.capacity
  · -- not full: the tail slot is in producer phase and enqueue succeeds
    have hseq : (getSlot (withStats bumpEnqAttempts q)
        (withStats bumpEnqAttempts q).tail).seq = (withStats bumpEnqAttempts q).tail := by
      rw [getSlot_withStats, withStats_tail, getSlot_seq q hwf.hpow]
      exact hwf.hemp q.tail le_rfl hnf
    refine ⟨true, withStats bumpEnqSuccesses
        { setSlot (withStats bumpEnqAttempts q) (withStats bumpEnqAttempts q).tail
            { packet := p, seq := (withStats bumpEnqAttempts q).tail + 1 } with
          tail := (withStats bumpEnqAttempts q).tail + 1 },
      ?_, ?_, ?_, ?_, ?_, ?_, ?_, ?_, ?_⟩
    · show enqueueLoop (fuel + 1) (withStats bumpEnqAttempts q) p = _
      simp only [enqueueLoop]
      rw [if_pos hseq]
    · -- WF of the post-state
      apply WF_withStats
      have hpow1 := hwf1.hpow
      have hht1 : (withStats bumpEnqAttempts q).head ≤ (withStats bumpEnqAttempts q).tail := by
        simpa using hwf.hht
      have hlt1 : (withStats bumpEnqAttempts q).tail <
          (withStats bumpEnqAttempts q).head + (withStats bumpEnqAttempts q).capacity := by
        simpa using hnf
      have hwin := push_win hwf1.hlen hwf1.hcap0
        hht1 hlt1 hwf1.hfull hwf1.hemp
        { packet := p, seq := (withStats bumpEnqAttempts q).tail + 1 } rfl
      refine ⟨?_, hwf1.hcap2, hwf1.hpow, ?_, ?_, ?_, ?_⟩
      · show (setSlot (withStats bumpEnqAttempts q) _ _).buffer.length = _
        rw [setSlot_buffer_length]
        exact hwf1.hlen
      · show (withStats bumpEnqAttempts q).head ≤ (withStats bumpEnqAttempts q).tail + 1
        omega
      · show (withStats bumpEnqAttempts q).tail + 1 ≤
          (withStats bumpEnqAttempts q).head + (withStats bumpEnqAttempts q).capacity
        omega
      · show fullWin (setSlot (withStats bumpEnqAttempts q) _ _).buffer _ _ _
        rw [setSlot_buffer_mod _ hpow1]
        exact hwin.1
      · show empWin (setSlot (withStats bumpEnqAttempts q) _ _).buffer _ _ _
        rw [setSlot_buffer_mod _ hpow1]
        exact hwin.2
    · simp
    · simp
    · simp
    · simp [Bool.cond_true]
    · simp
      have := hwf.hcap2
      omega
    · intro h
      exact absurd h (by simp)
    · intro hok
      rw [withStats_stats]
      simp only [setSlot_enable, withStats_enable, setSlot_stats, withStats_stats]
      by_cases he : q.enable_stats
      · simp only [he, if_true]
        exact ⟨Nat.succ_le_succ hok.1, hok.2⟩
      · simp only [he, if_false]
        exact hok
  · -- full: the tail slot is one full revolution behind and enqueue fails
    have htfull : q.tail = q.head + q.capacity := by have := hwf.hth; omega
    have hseqv : (getSlot (withStats bumpEnqAttempts q)
        (withStats bumpEnqAttempts q).tail).seq = q.head + 1 := by
      rw [getSlot_withStats, withStats_tail, getSlot_seq q hwf.hpow]
      exact seqIn_at_full hwf htfull
    have hcap2 := hwf.hcap2
    refine ⟨false, withStats bumpEnqAttempts q, ?_, hwf1, by simp, by simp, by simp,
      by simp, ?_, fun _ => rfl, hstats1⟩
    · show enqueueLoop (fuel + 1) (withStats bumpEnqAttempts q) p = _
      simp only [enqueueLoop]
      rw [hseqv]
      rw [if_neg (by simp; omega), if_pos (by simp; omega), if_pos (by simp; omega)]
    · constructor
      · intro h
        exact absurd h (by simp)
      · intro h
        omega

/-- std::optional<Packet> dequeue() from a well-formed state: decides in
the first loop iteration, yields a packet exactly when the queue is not
empty, and on absent leaves everything but the attempt counter
untouched. -/
lemma dequeue_total {q : Queue} (hwf : WF q) (fuel : Nat) :
    ∃ r q', dequeue (fuel + 1) q = some (r, q') ∧ WF q' ∧
      q'.capacity = q.capacity ∧ q'.enable_stats = q.enable_stats ∧
      q'.tail = q.tail ∧ q'.head = q.head + (bif r.isSome then 1 else 0) ∧
      (r.isSome = true ↔ q.head < q.tail) ∧
      (r = none → q' = withStats bumpDeqAttempts q) ∧
      (statsOk q.stats → statsOk q'.stats) := by
  have hwf1 : WF (withStats bumpDeqAttempts q) := WF_withStats _ hwf
  have hstats1 : statsOk q.stats → statsOk (withStats bumpDeqAttempts q).stats := by
    rw [withStats_stats]
    split
    · intro hok
      exact ⟨hok.1, Nat.le_succ_of_le hok.2⟩
    · exact id
  unfold dequeue
  by_cases hne : q.head < q.tail
  · -- not empty: the head slot is in consumer phase and dequeue succeeds
    have hseq : (getSlot (withStats bumpDeqAttempts q)
        (withStats bumpDeqAttempts q).head).seq = (withStats bumpDeqAttempts q).head + 1 := by
      rw [getSlot_withStats, withStats_head, getSlot_seq q hwf.hpow]
      exact hwf.hfull q.head le_rfl hne
    refine ⟨some (getSlot (withStats bumpDeqAttempts q)
        (withStats bumpDeqAttempts q).head).packet,
      withStats bumpDeqSuccesses
        { setSlot (withStats bumpDeqAttempts q) (withStats bumpDeqAttempts q).head
            { packet := (getSlot (withStats bumpDeqAttempts q)
                  (withStats bumpDeqAttempts q).head).packet.movedFrom,
              seq := (withStats bumpDeqAttempts q).head +
                (withStats bumpDeqAttempts q).capacity } with
          head := (withStats bumpDeqAttempts q).head + 1 },
      ?_, ?_, ?_, ?_, ?_, ?_, ?_, ?_, ?_⟩
    · show dequeueLoop (fuel + 1) (withStats bumpDeqAttempts q) = _
      simp only [dequeueLoop]
      rw [if_pos hseq]
    · -- WF of the post-state
      apply WF_withStats
      have hpow1 := hwf1.hpow
      have hlt1 : (withStats bumpDeqAttempts q).head < (withStats bumpDeqAttempts q).tail := by
        simpa using hne
      have hth1 : (withStats bumpDeqAttempts q).tail ≤
          (withStats bumpDeqAttempts q).head + (withStats bumpDeqAttempts q).capacity := by
        simpa using hwf.hth
      have hwin := pop_win hwf1.hlen hwf1.hcap0
        hlt1 hth1 hwf1.hfull hwf1.hemp
        { packet := (getSlot (withStats bumpDeqAttempts q)
              (withStats bumpDeqAttempts q).head).packet.movedFrom,
          seq := (withStats bumpDeqAttempts q).head +
            (withStats bumpDeqAttempts q).capacity } rfl
      refine ⟨?_, hwf1.hcap2, hwf1.hpow, ?_, ?_, ?_, ?_⟩
      · show (setSlot (withStats bumpDeqAttempts q) _ _).buffer.length = _
        rw [setSlot_buffer_length]
        exact hwf1.hlen
      · show (withStats bumpDeqAttempts q).head + 1 ≤ (withStats bumpDeqAttempts q).tail
        omega
      · show (withStats bumpDeqAttempts q).tail ≤
          (withStats bumpDeqAttempts q).head + 1 + (withStats bumpDeqAttempts q).capacity
        omega
      · show fullWin (setSlot (withStats bumpDeqAttempts q) _ _).buffer _ _ _
        rw [setSlot_buffer_mod _ hpow1]
        exact hwin.1
      · show empWin (setSlot (withStats bumpDeqAttempts q) _ _).buffer _ _ _
        rw [setSlot_buffer_mod _ hpow1]
        exact hwin.2
    · simp
    · simp
    · simp
    · simp [Option.isSome]
    · simp
      exact hne
    · intro h
      exact absurd h (by simp)
    · intro hok
      rw [withStats_stats]
      simp only [setSlot_enable, withStats_enable, setSlot_stats, withStats_stats]
      by_cases he : q.enable_stats
      · simp only [he, if_true]
        exact ⟨hok.1, Nat.succ_le_succ hok.2⟩
      · simp only [he, if_false]
        exact hok
  · -- empty: the head slot still carries this revolution's producer phase
    have hht : q.head = q.tail := by have := hwf.hht; omega
    have hseqv : (getSlot (withStats bumpDeqAttempts q)
        (withStats bumpDeqAttempts q).head).seq = q.head := by
      rw [getSlot_withStats, withStats_head, getSlot_seq q hwf.hpow]
      exact hwf.hemp q.head (by omega) (by have := hwf.hcap0; omega)
    refine ⟨none, withStats bumpDeqAttempts q, ?_, hwf1, by simp, by simp, by simp,
      by simp, ?_, fun _ => rfl, hstats1⟩
    · show dequeueLoop (fuel + 1) (withStats bumpDeqAttempts q) = _
      simp only [dequeueLoop]
      rw [hseqv]
      rw [if_neg (by simp), if_pos (by simp), if_pos (by simp; omega)]
    · constructor
      · intro h
        exact absurd h (by simp)
      · intro h
        exact absurd h hne

/-- bool try_enqueue(const Packet&) from a well-formed state: succeeds
exactly when not full, never touches the stats, and on failure leaves
the queue exactly as it was. -/
lemma try_enqueue_total {q : Queue} (hwf : WF q) (p : Packet) :
    ∃ b q', try_enqueue q p = (b, q') ∧ WF q' ∧
      q'.capacity = q.capacity ∧ q'.enable_stats = q.enable_stats ∧
      q'.head = q.head ∧ q'.tail = q.tail + (bif b then 1 else 0) ∧
      (b = true ↔ q.tail - q.head < q.capacity) ∧
      (b = false → q' = q) ∧ q'.stats = q.stats := by
  by_cases hnf : q.tail < q.head + q.capacity
  · have hseq : (getSlot q q.tail).seq = q.tail := by
      rw [getSlot_seq q hwf.hpow]
      exact hwf.hemp q.tail le_rfl hnf
    refine ⟨true, { setSlot q q.tail { packet := p, seq := q.tail + 1 } with
        tail := q.tail + 1 }, ?_, ?_, ?_, ?_, ?_, ?_, ?_, ?_, ?_⟩
    · show try_enqueue q p = _
      simp only [try_enqueue]
      rw [if_pos hseq]
    · have hwin := push_win hwf.hlen hwf.hcap0
        hwf.hht hnf hwf.hfull hwf.hemp { packet := p, seq := q.tail + 1 } rfl
      refine ⟨?_, hwf.hcap2, hwf.hpow, ?_, ?_, ?_, ?_⟩
      · show (setSlot q _ _).buffer.length = _
        rw [setSlot_buffer_length]
        exact hwf.hlen
      · show q.head ≤ q.tail + 1
        have := hwf.hht
        omega
      · show q.tail + 1 ≤ q.head + q.capacity
        omega
      · show fullWin (setSlot q _ _).buffer _ _ _
        rw [setSlot_buffer_mod _ hwf.hpow]
        exact hwin.1
      · show empWin (setSlot q _ _).buffer _ _ _
        rw [setSlot_buffer_mod _ hwf.hpow]
        exact hwin.2
    · rfl
    · rfl
    · rfl
    · rfl
    · simp
      have := hwf.hcap2
      omega
    · intro h
      exact absurd h (by simp)
    · rfl
  · have htfull : q.tail = q.head + q.capacity := by have := hwf.hth; omega
    have hseqv : (getSlot q q.tail).seq = q.head + 1 := by
      rw [getSlot_seq q hwf.hpow]
      exact seqIn_at_full hwf htfull
    have hcap2 := hwf.hcap2
    refine ⟨false, q, ?_, hwf, rfl, rfl, rfl, rfl, ?_, fun _ => rfl, rfl⟩
    · show try_enqueue q p = _
      simp only [try_enqueue]
      rw [hseqv, if_neg (by omega)]
    · constructor
      · intro h
        exact absurd h (by simp)
      · intro h
        omega

/-- std::optional<Packet> try_dequeue() from a well-formed state:
succeeds exactly when not empty, never touches the stats, and on
failure leaves the queue exactly as it was. -/
lemma try_dequeue_total {q : Queue} (hwf : WF q) :
    ∃ r q', try_dequeue q = (r, q') ∧ WF q' ∧
      q'.capacity = q.capacity ∧ q'.enable_stats = q.enable_stats ∧
      q'.tail = q.tail ∧ q'.head = q.head + (bif r.isSome then 1 else 0) ∧
      (r.isSome = true ↔ q.head < q.tail) ∧
      (r = none → q' = q) ∧ q'.stats = q.stats := by
  by_cases hne : q.head < q.tail
  · have hseq : (getSlot q q.head).seq = q.head + 1 := by
      rw [getSlot_seq q hwf.hpow]
      exact hwf.hfull q.head le_rfl hne
    refine ⟨some (getSlot q q.head).packet,
      { setSlot q q.head
          (Slot.mk ((getSlot q q.head).packet.movedFrom) (q.head + q.capacity)) with
        head := q.head + 1 },
      ?_, ?_, ?_, ?_, ?_, ?_, ?_, ?_, ?_⟩
    · show try_dequeue q = _
      simp only [try_dequeue]
      rw [if_pos hseq]
    · have hwin := pop_win hwf.hlen hwf.hcap0
        hne hwf.hth hwf.hfull hwf.hemp
        (Slot.mk ((getSlot q q.head).packet.movedFrom) (q.head + q.capacity)) rfl
      refine ⟨?_, hwf.hcap2, hwf.hpow, ?_, ?_, ?_, ?_⟩
      · show (setSlot q _ _).buffer.length = _
        rw [setSlot_buffer_length]
        exact hwf.hlen
      · show q.head + 1 ≤ q.tail
        omega
      · show q.tail ≤ q.head + 1 + q.capacity
        have := hwf.hth
        omega
      · show fullWin (setSlot q _ _).buffer _ _ _
        rw [setSlot_buffer_mod _ hwf.hpow]
        exact hwin.1
      · show empWin (setSlot q _ _).buffer _ _ _
        rw [setSlot_buffer_mod _ hwf.hpow]
        exact hwin.2
    · rfl
    · rfl
    · rfl
    · simp [Option.isSome]
    · simp
      exact hne
    · intro h
      exact absurd h (by simp)
    · rfl
  · have hht : q.head = q.tail := by have := hwf.hht; omega
    have hseqv : (getSlot q q.head).seq = q.head := by
      rw [getSlot_seq q hwf.hpow]
      exact hwf.hemp q.head (by omega) (by have := hwf.hcap0; omega)
    refine ⟨none, q, ?_, hwf, rfl, rfl, rfl, rfl, ?_, fun _ => rfl, rfl⟩
    · show try_dequeue q = _
      simp only [try_dequeue]
      rw [hseqv, if_neg (by omega)]
    · constructor
      · intro h
        exact absurd h (by simp)
      · intro h
        exact absurd h hne

/-! ### The batch operations from a well-formed state -/

/-- The inner filling loop of enqueue_batch never waits in a sequential
execution: every reserved position is already in producer phase, so each
slot is written and published in one pass, extending the full window by
the batch length. -/
lemma fillSlots_spec : ∀ (ps : List Packet) (q : Queue) (h t : Nat),
    q.buffer.length = q.capacity → q.capacity = 2 ^ Nat.log2 q.capacity →
    h ≤ t → t + ps.length ≤ h + q.capacity →
    fullWin q.buffer q.capacity h t → empWin q.buffer q.capacity h t →
    ∃ q', fillSlots q t ps = some q' ∧
      q'.capacity = q.capacity ∧ q'.head = q.head ∧ q'.tail = q.tail ∧
      q'.enable_stats = q.enable_stats ∧ q'.stats = q.stats ∧
      q'.buffer.length = q.buffer.length ∧
      fullWin q'.buffer q'.capacity h (t + ps.length) ∧
      empWin q'.buffer q'.capacity h (t + ps.length)
  | [], q, h, t, hlen, hpow, hht, hbound, hfull, hemp =>
    ⟨q, rfl, rfl, rfl, rfl, rfl, rfl, rfl, by simpa using hfull, by simpa using hemp⟩
  | p :: rest, q, h, t, hlen, hpow, hht, hbound, hfull, hemp => by
    have hcap0 : 0 < q.capacity := by
      rw [hpow]; exact Nat.pow_pos (by norm_num)
    have hlt : t < h + q.capacity := by
      simp only [List.length_cons] at hbound; omega
    have hseq : (getSlot q t).seq = t := by
      rw [getSlot_seq q hpow]; exact hemp t le_rfl hlt
    have hwin := push_win hlen hcap0 hht hlt hfull hemp
      (Slot.mk p (t + 1)) rfl
    obtain ⟨q', hfill, h1, h2, h3, h4, h5, h6, h7, h8⟩ :=
      fillSlots_spec rest (setSlot q t (Slot.mk p (t + 1))) h (t + 1)
        (by rw [setSlot_buffer_length, setSlot_capacity]; exact hlen)
        (by rw [setSlot_capacity]; exact hpow)
        (by omega)
        (by rw [setSlot_capacity]; simp only [List.length_cons] at hbound; omega)
        (by rw [setSlot_buffer_mod q hpow, setSlot_capacity]; exact hwin.1)
        (by rw [setSlot_buffer_mod q hpow, setSlot_capacity]; exact hwin.2)
    have hlenx : t + (p :: rest).length = (t + 1) + rest.length := by
      simp only [List.length_cons]; omega
    refine ⟨q', ?_, ?_, ?_, ?_, ?_, ?_, ?_, ?_, ?_⟩
    · show fillSlots q t (p :: rest) = some q'
      simp only [fillSlots]
      rw [if_pos hseq]
      exact hfill
    · rw [h1, setSlot_capacity]
    · rw [h2, setSlot_head]
    · rw [h3, setSlot_tail]
    · rw [h4, setSlot_enable]
    · rw [h5, setSlot_stats]
    · rw [h6, setSlot_buffer_length]
    · rw [hlenx]; exact h7
    · rw [hlenx]; exact h8

/-- The outer loop of enqueue_batch from a well-formed state: terminates
with a well-formed state, enqueues at most the input length, advances
only the tail and only by the number enqueued, and stops short only when
the queue has become full. -/
lemma enqueueBatchGo_spec : ∀ (N : Nat) (ps : List Packet) (q : Queue) (count : Nat),
    ps.length < N → WF q →
    ∃ n q', enqueueBatchGo N q ps count = some (n, q') ∧ WF q' ∧
      count ≤ n ∧ n - count ≤ ps.length ∧
      q'.capacity = q.capacity ∧ q'.enable_stats = q.enable_stats ∧ q'.stats = q.stats ∧
      q'.head = q.head ∧ q'.tail = q.tail + (n - count) ∧
      (n - count < ps.length → q'.tail = q'.head + q'.capacity) := by
  intro N
  induction N with
  | zero =>
    intro ps q count hN hwf
    exact absurd hN (by omega)
  | succ N ih =>
    intro ps q count hN hwf
    by_cases hempty : ps.isEmpty
    · have hnil : ps = [] := by simpa [List.isEmpty_iff] using hempty
      subst hnil
      refine ⟨count, q, ?_, hwf, le_rfl, by simp, rfl, rfl, rfl, rfl, by simp, ?_⟩
      · simp only [enqueueBatchGo]
        simp
      · intro h
        simp at h
    · by_cases hfl : q.capacity ≤ q.tail - q.head
      · -- the queue is full on entry: break immediately
        have hfull_eq : q.tail = q.head + q.capacity := by
          have h1 := hwf.hht
          have h2 := hwf.hth
          omega
        refine ⟨count, q, ?_, hwf, le_rfl, by simp, rfl, rfl, rfl, rfl, by simp,
          fun _ => hfull_eq⟩
        · simp only [enqueueBatchGo]
          rw [if_neg hempty]
          rw [if_pos hfl]
      · -- reserve a batch, fill it, and continue on the remainder
        have hht := hwf.hht
        have hlen1 : 1 ≤ ps.length := by
          cases ps with
          | nil => simp at hempty
          | cons a l => simp
        have hk1 : 1 ≤ min ps.length (q.capacity - (q.tail - q.head)) := by
          refine le_min hlen1 (by omega)
        have hk0 : ¬ (min ps.length (q.capacity - (q.tail - q.head)) = 0) := by omega
        have hkle : min ps.length (q.capacity - (q.tail - q.head)) ≤ ps.length :=
          min_le_left _ _
        have htake : (ps.take (min ps.length (q.capacity - (q.tail - q.head)))).length
            = min ps.length (q.capacity - (q.tail - q.head)) := by
          rw [List.length_take]
          omega
        obtain ⟨q2, hfill, g1, g2, g3, g4, g5, g6, g7, g8⟩ :=
          fillSlots_spec (ps.take (min ps.length (q.capacity - (q.tail - q.head))))
            { q with tail := q.tail + min ps.length (q.capacity - (q.tail - q.head)) }
            q.head q.tail hwf.hlen hwf.hpow hwf.hht
            (by
              rw [htake]
              show q.tail + min ps.length (q.capacity - (q.tail - q.head)) ≤
                q.head + q.capacity
              omega)
            hwf.hfull hwf.hemp
        have hcapq : q2.capacity = q.capacity := g1
        have hheadq : q2.head = q.head := g2
        have htailq : q2.tail = q.tail + min ps.length (q.capacity - (q.tail - q.head)) := g3
        have hblen : q2.buffer.length = q.buffer.length := g6
        rw [htake] at g7 g8
        have hwf2 : WF q2 := by
          refine ⟨?_, ?_, ?_, ?_, ?_, ?_, ?_⟩
          · rw [hblen, hcapq]
            exact hwf.hlen
          · rw [hcapq]
            exact hwf.hcap2
          · rw [hcapq]
            exact hwf.hpow
          · rw [hheadq, htailq]
            omega
          · rw [hheadq, htailq, hcapq]
            omega
          · rw [hheadq, htailq, hcapq]
            rw [hcapq] at g7
            exact g7
          · rw [hheadq, htailq, hcapq]
            rw [hcapq] at g8
            exact g8
        obtain ⟨n, q', hrec, hwfq', hcn, hcnt, e1, e2, e3, e4, e5, e6⟩ :=
          ih (ps.drop (min ps.length (q.capacity - (q.tail - q.head)))) q2
            (count + min ps.length (q.capacity - (q.tail - q.head)))
            (by rw [List.length_drop]; omega) hwf2
        rw [List.length_drop] at hcnt e6
        refine ⟨n, q', ?_, hwfq', by omega, by omega, ?_, ?_, ?_, ?_, ?_, ?_⟩
        · simp only [enqueueBatchGo]
          rw [if_neg hempty]
          rw [if_neg hfl]
          rw [if_neg hk0]
          rw [hfill]
          exact hrec
        · rw [e1, hcapq]
        · rw [e2, g4]
        · rw [e3, g5]
        · rw [e4, hheadq]
        · rw [e5, htailq]
          omega
        · intro hshort
          rcases Nat.lt_or_ge (n - (count + min ps.length (q.capacity - (q.tail - q.head))))
              (ps.length - min ps.length (q.capacity - (q.tail - q.head))) with hlt | hge
          · exact e6 hlt
          · exfalso
            omega

/-- The inner draining loop of dequeue_batch never waits in a sequential
execution: every reserved position is already in consumer phase, so each
packet is moved out and its slot released in one pass.  The returned
packets are exactly the resident ones at positions [h, h + k). -/
lemma drainSlots_spec : ∀ (k : Nat) (q : Queue) (h t : Nat),
    q.buffer.length = q.capacity → q.capacity = 2 ^ Nat.log2 q.capacity →
    h + k ≤ t → t ≤ h + q.capacity →
    fullWin q.buffer q.capacity h t → empWin q.buffer q.capacity h t →
    ∃ out q', drainSlots q h k = some (out, q') ∧ out.length = k ∧
      q'.capacity = q.capacity ∧ q'.head = q.head ∧ q'.tail = q.tail ∧
      q'.enable_stats = q.enable_stats ∧ q'.stats = q.stats ∧
      q'.buffer.length = q.buffer.length ∧
      fullWin q'.buffer q'.capacity (h + k) t ∧ empWin q'.buffer q'.capacity (h + k) t
  | 0, q, h, t, hlen, hpow, hbound, hth, hfull, hemp =>
    ⟨[], q, rfl, rfl, rfl, rfl, rfl, rfl, rfl, rfl,
      by simpa using hfull, by simpa using hemp⟩
  | k + 1, q, h, t, hlen, hpow, hbound, hth, hfull, hemp => by
    have hcap0 : 0 < q.capacity := by
      rw [hpow]; exact Nat.pow_pos (by norm_num)
    have hlt : h < t := by omega
    have hseq : (getSlot q h).seq = h + 1 := by
      rw [getSlot_seq q hpow]; exact hfull h le_rfl hlt
    have hwin := pop_win hlen hcap0 hlt hth hfull hemp
      (Slot.mk ((getSlot q h).packet.movedFrom) (h + q.capacity)) rfl
    obtain ⟨out, q', hdrain, hout, h1, h2, h3, h4, h5, h6, h7, h8⟩ :=
      drainSlots_spec k
        (setSlot q h (Slot.mk ((getSlot q h).packet.movedFrom) (h + q.capacity)))
        (h + 1) t
        (by rw [setSlot_buffer_length, setSlot_capacity]; exact hlen)
        (by rw [setSlot_capacity]; exact hpow)
        (by omega)
        (by rw [setSlot_capacity]; omega)
        (by rw [setSlot_buffer_mod q hpow, setSlot_capacity]; exact hwin.1)
        (by rw [setSlot_buffer_mod q hpow, setSlot_capacity]; exact hwin.2)
    have hidx : h + 1 + k = h + (k + 1) := by omega
    refine ⟨(getSlot q h).packet :: out, q', ?_, ?_, ?_, ?_, ?_, ?_, ?_, ?_, ?_, ?_⟩
    · show drainSlots q h (k + 1) = some _
      simp only [drainSlots]
      rw [if_pos hseq]
      rw [hdrain]
    · simp [hout]
    · rw [h1, setSlot_capacity]
    · rw [h2, setSlot_head]
    · rw [h3, setSlot_tail]
    · rw [h4, setSlot_enable]
    · rw [h5, setSlot_stats]
    · rw [h6, setSlot_buffer_length]
    · rw [← hidx]; exact h7
    · rw [← hidx]; exact h8

/-- The outer loop of dequeue_batch from a well-formed state: terminates
with a well-formed state, dequeues at most the buffer length, advances
only the head and only by the number dequeued. -/
lemma dequeueBatchGo_spec : ∀ (N r : Nat) (q : Queue) (count : Nat),
    r < N → WF q →
    ∃ n out q', dequeueBatchGo N q r count = some (n, out, q') ∧ WF q' ∧
      count ≤ n ∧ n - count ≤ r ∧ out.length = n - count ∧
      q'.capacity = q.capacity ∧ q'.enable_stats = q.enable_stats ∧ q'.stats = q.stats ∧
      q'.tail = q.tail ∧ q'.head = q.head + (n - count) := by
  intro N
  induction N with
  | zero =>
    intro r q count hN hwf
    exact absurd hN (by omega)
  | succ N ih =>
    intro r q count hN hwf
    by_cases hr0 : r = 0
    · subst hr0
      refine ⟨count, [], q, ?_, hwf, le_rfl, by simp, by simp, rfl, rfl, rfl, rfl, by simp⟩
      simp only [dequeueBatchGo]
      simp
    · by_cases hempty : q.tail ≤ q.head
      · refine ⟨count, [], q, ?_, hwf, le_rfl, by simp, by simp, rfl, rfl, rfl, rfl, by simp⟩
        simp only [dequeueBatchGo]
        rw [if_neg hr0]
        rw [if_pos hempty]
      · have hne : q.head < q.tail := by omega
        have hth := hwf.hth
        have hk1 : 1 ≤ min r (q.tail - q.head) := by
          refine le_min (by omega) (by omega)
        have hk0 : ¬ (min r (q.tail - q.head) = 0) := by omega
        obtain ⟨out, q2, hdrain, hout, g1, g2, g3, g4, g5, g6, g7, g8⟩ :=
          drainSlots_spec (min r (q.tail - q.head))
            { q with head := q.head + min r (q.tail - q.head) }
            q.head q.tail hwf.hlen hwf.hpow
            (by show q.head + min r (q.tail - q.head) ≤ q.tail; omega)
            (by show q.tail ≤ q.head + q.capacity; omega)
            hwf.hfull hwf.hemp
        have hcapq : q2.capacity = q.capacity := g1
        have hheadq : q2.head = q.head + min r (q.tail - q.head) := g2
        have htailq : q2.tail = q.tail := g3
        have hblen : q2.buffer.length = q.buffer.length := g6
        have hwf2 : WF q2 := by
          refine ⟨?_, ?_, ?_, ?_, ?_, ?_, ?_⟩
          · rw [hblen, hcapq]
            exact hwf.hlen
          · rw [hcapq]
            exact hwf.hcap2
          · rw [hcapq]
            exact hwf.hpow
          · rw [hheadq, htailq]
            omega
          · rw [hheadq, htailq, hcapq]
            omega
          · rw [hheadq, htailq, hcapq]
            rw [hcapq] at g7
            exact g7
          · rw [hheadq, htailq, hcapq]
            rw [hcapq] at g8
            exact g8
        obtain ⟨n, out2, q', hrec, hwfq', hcn, hcnt, houtlen, e1, e2, e3, e4, e5⟩ :=
          ih (r - min r (q.tail - q.head)) q2 (count + min r (q.tail - q.head))
            (by omega) hwf2
        refine ⟨n, out ++ out2, q', ?_, hwfq', by omega, by omega, ?_, ?_, ?_, ?_, ?_, ?_⟩
        · simp only [dequeueBatchGo]
          rw [if_neg hr0]
          rw [if_neg (by omega)]
          rw [if_neg hk0]
          rw [hdrain]
          dsimp only
          rw [hrec]
        · rw [List.length_append, hout, houtlen]
          omega
        · rw [e1, hcapq]
        · rw [e2, g4]
        · rw [e3, g5]
        · rw [e4, htailq]
        · rw [e5, hheadq]
          omega

/-- size_t enqueue_batch(span<const Packet>) from a well-formed state. -/
lemma enqueue_batch_total {q : Queue} (hwf : WF q) (ps : List Packet) :
    ∃ n q', enqueue_batch q ps = some (n, q') ∧ WF q' ∧
      n ≤ ps.length ∧
      q'.capacity = q.capacity ∧ q'.enable_stats = q.enable_stats ∧
      q'.head = q.head ∧ q'.tail = q.tail + n ∧
      (statsOk q.stats → statsOk q'.stats) ∧
      (n < ps.length → q'.tail = q'.head + q'.capacity) := by
  by_cases hempty : ps.isEmpty
  · refine ⟨0, q, ?_, hwf, by simp, rfl, rfl, rfl, by simp, id, ?_⟩
    · unfold enqueue_batch
      rw [if_pos hempty]
    · intro h
      have : ps = [] := by simpa [List.isEmpty_iff] using hempty
      subst this
      simp at h
  · have hwf1 : WF (withStats bumpBatchEnqueues q) := WF_withStats _ hwf
    obtain ⟨n, q', hgo, hwf', hcn, hcnt, e1, e2, e3, e4, e5, e6⟩ :=
      enqueueBatchGo_spec (ps.length + 1) ps (withStats bumpBatchEnqueues q) 0 (by omega) hwf1
    simp only [Nat.sub_zero] at hcnt e5 e6
    refine ⟨n, q', ?_, hwf', hcnt, ?_, ?_, ?_, ?_, ?_, e6⟩
    · unfold enqueue_batch
      rw [if_neg hempty]
      exact hgo
    · rw [e1, withStats_capacity]
    · rw [e2, withStats_enable]
    · rw [e4, withStats_head]
    · rw [e5, withStats_tail]
    · intro hok
      rw [e3, withStats_stats]
      split
      · exact ⟨hok.1, hok.2⟩
      · exact hok

/-- size_t dequeue_batch(span<Packet>) from a well-formed state. -/
lemma dequeue_batch_total {q : Queue} (hwf : WF q) (bufLen : Nat) :
    ∃ n out q', dequeue_batch q bufLen = some (n, out, q') ∧ WF q' ∧
      n ≤ bufLen ∧ out.length = n ∧
      q'.capacity = q.capacity ∧ q'.enable_stats = q.enable_stats ∧
      q'.tail = q.tail ∧ q'.head = q.head + n ∧
      (statsOk q.stats → statsOk q'.stats) := by
  by_cases h0 : bufLen = 0
  · subst h0
    refine ⟨0, [], q, ?_, hwf, le_rfl, rfl, rfl, rfl, rfl, by simp, id⟩
    unfold dequeue_batch
    simp
  · have hwf1 : WF (withStats bumpBatchDequeues q) := WF_withStats _ hwf
    obtain ⟨n, out, q', hgo, hwf', hcn, hcnt, hlen, e1, e2, e3, e4, e5⟩ :=
      dequeueBatchGo_spec (bufLen + 1) bufLen (withStats bumpBatchDequeues q) 0 (by omega) hwf1
    simp only [Nat.sub_zero] at hcnt hlen e5
    refine ⟨n, out, q', ?_, hwf', hcnt, hlen, ?_, ?_, ?_, ?_, ?_⟩
    · unfold dequeue_batch
      rw [if_neg h0]
      exact hgo
    · rw [e1, withStats_capacity]
    · rw [e2, withStats_enable]
    · rw [e4, withStats_tail]
    · rw [e5, withStats_head]
    · intro hok
      rw [e3, withStats_stats]
      split
      · exact ⟨hok.1, hok.2⟩
      · exact hok

/-! ### Sequential histories -/

/-- Every call from a well-formed state terminates with some result,
preserves well-formedness, and moves the cursors by exactly what its
result reports. -/
lemma applyOp_spec {q : Queue} (hwf : WF q) (op : Op) :
    ∃ r q', applyOp q op = some (r, q') ∧ WF q' ∧
      q'.capacity = q.capacity ∧ q'.enable_stats = q.enable_stats ∧
      q'.tail = q.tail + resAdded r ∧ q'.head = q.head + resRemoved r ∧
      (statsOk q.stats → statsOk q'.stats) := by
  cases op with
  | enq p =>
    obtain ⟨b, q', h1, hwf', hc, he, hh, ht, _, _, hs⟩ := enqueue_total hwf p 0
    refine ⟨.ok b, q', ?_, hwf', hc, he, ?_, ?_, hs⟩
    · show (enqueue 1 q p).map _ = _
      rw [h1]
      rfl
    · rw [ht]; rfl
    · rw [hh]; rfl
  | deq =>
    obtain ⟨r, q', h1, hwf', hc, he, ht, hh, _, _, hs⟩ := dequeue_total hwf 0
    refine ⟨.got r, q', ?_, hwf', hc, he, ?_, ?_, hs⟩
    · show (dequeue 1 q).map _ = _
      rw [h1]
      rfl
    · rw [ht]; rfl
    · rw [hh]; rfl
  | tryEnq p =>
    obtain ⟨b, q', h1, hwf', hc, he, hh, ht, _, _, hs⟩ := try_enqueue_total hwf p
    refine ⟨.ok b, q', ?_, hwf', hc, he, ?_, ?_, ?_⟩
    · show some (OpResult.ok (try_enqueue q p).1, (try_enqueue q p).2)
        = some (OpResult.ok b, q')
      rw [h1]
    · rw [ht]; rfl
    · rw [hh]; rfl
    · intro hok
      rw [hs]
      exact hok
  | tryDeq =>
    obtain ⟨r, q', h1, hwf', hc, he, ht, hh, _, _, hs⟩ := try_dequeue_total hwf
    refine ⟨.got r, q', ?_, hwf', hc, he, ?_, ?_, ?_⟩
    · show some (OpResult.got (try_dequeue q).1, (try_dequeue q).2)
        = some (OpResult.got r, q')
      rw [h1]
    · rw [ht]; rfl
    · rw [hh]; rfl
    · intro hok
      rw [hs]
      exact hok
  | enqBatch ps =>
    obtain ⟨n, q', h1, hwf', _, hc, he, hh, ht, hs, _⟩ := enqueue_batch_total hwf ps
    refine ⟨.enqCnt n, q', ?_, hwf', hc, he, ?_, ?_, hs⟩
    · show (enqueue_batch q ps).map _ = _
      rw [h1]
      rfl
    · rw [ht]; rfl
    · rw [hh]; rfl
  | deqBatch bufLen =>
    obtain ⟨n, out, q', h1, hwf', _, _, hc, he, ht, hh, hs⟩ := dequeue_batch_total hwf bufLen
    refine ⟨.deqCnt n out, q', ?_, hwf', hc, he, ?_, ?_, hs⟩
    · show (dequeue_batch q bufLen).map _ = _
      rw [h1]
      rfl
    · rw [ht]; rfl
    · rw [hh]; rfl

/-- A whole sequential history from a well-formed state runs to
completion; the final cursors record exactly the totals the results
report, and the stats invariant is maintained. -/
lemma runTrace_spec : ∀ (ops : List Op) (q : Queue), WF q →
    ∃ rs qf, runTrace q ops = some (rs, qf) ∧ WF qf ∧
      qf.capacity = q.capacity ∧ qf.enable_stats = q.enable_stats ∧
      qf.tail = q.tail + addedTotal rs ∧ qf.head = q.head + removedTotal rs ∧
      (statsOk q.stats → statsOk qf.stats)
  | [], q, hwf =>
    ⟨[], q, rfl, hwf, rfl, rfl, by simp [addedTotal], by simp [removedTotal], id⟩
  | op :: ops, q, hwf => by
    obtain ⟨r, q', h1, hwf', hc, he, ht, hh, hs⟩ := applyOp_spec hwf op
    obtain ⟨rs, qf, h2, hwff, hcf, hef, htf, hhf, hsf⟩ := runTrace_spec ops q' hwf'
    refine ⟨r :: rs, qf, ?_, hwff, by rw [hcf, hc], by rw [hef, he], ?_, ?_,
      fun hok => hsf (hs hok)⟩
    · show runTrace q (op :: ops) = _
      simp only [runTrace]
      rw [h1]
      dsimp only
      rw [h2]
    · rw [htf, ht]
      simp only [addedTotal, List.map_cons, List.sum_cons]
      omega
    · rw [hhf, hh]
      simp only [removedTotal, List.map_cons, List.sum_cons]
      omega

/-- Every state reached by a sequential history from a fresh queue is
well-formed, and its cursors record the totals of the history's
results. -/
lemma runTrace_reachable {n : Nat} {s : Bool} {q0 : Queue} {ops : List Op}
    {rs : List OpResult} {q : Queue}
    (hmk : mkQueue n s = some q0) (hrun : runTrace q0 ops = some (rs, q)) :
    WF q ∧ q.enable_stats = s ∧
      q.tail = addedTotal rs ∧ q.head = removedTotal rs ∧ statsOk q.stats := by
  have hwf0 := WF_mkQueue hmk
  obtain ⟨hcap, hh0, ht0, hen, hst, hbuf, _, _⟩ := mkQueue_some hmk
  obtain ⟨rs', qf, hr, hwff, hcf, hef, htf, hhf, hsf⟩ := runTrace_spec ops q0 hwf0
  rw [hrun] at hr
  simp only [Option.some.injEq, Prod.mk.injEq] at hr
  obtain ⟨h1, h2⟩ := hr
  subst h1
  subst h2
  refine ⟨hwff, by rw [hef, hen], ?_, ?_, ?_⟩
  · rw [htf, ht0]
    simp
  · rw [hhf, hh0]
    simp
  · apply hsf
    rw [hst]
    exact ⟨le_rfl, le_rfl⟩

/-- For every accepted request the source's rounding agrees with the
spec's max(2, next_power_of_two(n)). -/
lemma round_up_eq_spec {n : Nat} (hn : n ≠ 0)
    (hacc : ¬ SIZE_MAX >>> 1 < round_up_to_power_of_two n) :
    round_up_to_power_of_two n = max 2 (next_power_of_two_spec n) := by
  unfold round_up_to_power_of_two at *
  unfold next_power_of_two_spec
  by_cases h1 : n ≤ 1
  · rw [if_pos h1]
    have hn1 : n = 1 := by omega
    subst hn1
    rw [Nat.clog_one_right]
    norm_num
  · rw [if_neg h1] at *
    by_cases h2 : SIZE_MAX >>> 1 < n
    · rw [if_pos h2] at hacc
      exfalso
      apply hacc
      rw [shiftRight_SIZE_MAX]
      unfold SIZE_MAX
      omega
    · rw [if_neg h2]
      have hacc2 : n ≤ 2 ^ 63 - 1 := by
        rw [shiftRight_SIZE_MAX] at h2
        omega
      have hlt64 : n - 1 < 2 ^ 64 := by
        have hp : (2 : Nat) ^ 63 - 1 < 2 ^ 64 := by norm_num
        omega
      rw [log2Fuel_eq 64 (n - 1) hlt64]
      have hn2 : 2 ≤ n := by omega
      have hclog1 : 0 < Nat.clog 2 n := Nat.clog_pos (by norm_num) hn2
      have hkey : Nat.log2 (n - 1) + 1 = Nat.clog 2 n := by
        have hne : n - 1 ≠ 0 := by omega
        have hlow : 2 ^ Nat.log2 (n - 1) ≤ n - 1 := by
          rw [Nat.log2_eq_log_two]
          exact Nat.pow_log_le_self 2 hne
        have hhigh : n - 1 < 2 ^ (Nat.log2 (n - 1) + 1) := by
          rw [Nat.log2_eq_log_two]
          exact Nat.lt_pow_succ_log_self (by norm_num) _
        have hub : Nat.clog 2 n ≤ Nat.log2 (n - 1) + 1 :=
          (Nat.le_pow_iff_clog_le (by norm_num)).mp (by omega)
        have hlb : Nat.log2 (n - 1) < Nat.clog 2 n :=
          (Nat.pow_lt_iff_lt_clog (by norm_num)).mp (by omega)
        omega
      rw [hkey]
      have h2le : 2 ≤ 2 ^ Nat.clog 2 n := by
        calc (2 : Nat) = 2 ^ 1 := rfl
          _ ≤ 2 ^ Nat.clog 2 n := Nat.pow_le_pow_right (by norm_num) hclog1
      omega

/-! ### The claims -/

/-- C1: For every queue constructed with capacity ≥ 2 (which every
accepted construction yields) and every state reachable by a sequential
history of enqueue, dequeue, try_enqueue, try_dequeue, enqueue_batch
and dequeue_batch calls, the cursors satisfy 0 ≤ tail − head ≤ capacity
(head ≤ tail, so the size_t subtraction tail − head is the true count),
size() = tail − head, and tail − head equals the number of elements
logically resident: successful single enqueues plus batch-enqueued
elements minus successful single dequeues and batch-dequeued
elements. -/
theorem claim_C1 {n : Nat} {s : Bool} {q0 : Queue} {ops : List Op}
    {rs : List OpResult} {q : Queue}
    (hmk : mkQueue n s = some q0) (hrun : runTrace q0 ops = some (rs, q)) :
    2 ≤ q.capacity ∧ q.head ≤ q.tail ∧ q.tail - q.head ≤ q.capacity ∧
      Queue.size q = q.tail - q.head ∧
      q.tail - q.head + removedTotal rs = addedTotal rs := by
  obtain ⟨hwf, _, ht, hh, _⟩ := runTrace_reachable hmk hrun
  have h1 := hwf.hht
  have h2 := hwf.hth
  exact ⟨hwf.hcap2, h1, by omega, rfl, by omega⟩

/-- C1 witness: the invariant at the concrete state reached on a
capacity-4 queue after one enqueue and one dequeue. -/
theorem claim_C1_witness :
    2 ≤ (4 : Nat) ∧ (1 : Nat) ≤ 1 ∧ (1 : Nat) - 1 ≤ 4 ∧
      Queue.size
        { capacity := 4,
          buffer := [{ packet := { data := 0, length := 0, priority := .Low, id := 0 }, seq := 4 },
                     { packet := { data := 0, length := 0, priority := .Low, id := 0 }, seq := 1 },
                     { packet := { data := 0, length := 0, priority := .Low, id := 0 }, seq := 2 },
                     { packet := { data := 0, length := 0, priority := .Low, id := 0 }, seq := 3 }],
          head := 1, tail := 1, enable_stats := false,
          stats := { enqueue_attempts := 0, enqueue_successes := 0, dequeue_attempts := 0,
                     dequeue_successes := 0, batch_enqueues := 0, batch_dequeues := 0,
                     contention_events := 0 } } = 1 - 1 ∧
      (1 : Nat) - 1 + removedTotal [OpResult.ok true,
          OpResult.got (some { data := 0, length := 0, priority := .Low, id := 7 })]
        = addedTotal [OpResult.ok true,
          OpResult.got (some { data := 0, length := 0, priority := .Low, id := 7 })] :=
  @claim_C1 4 false
    { capacity := 4,
      buffer := [{ packet := { data := 0, length := 0, priority := .Low, id := 0 }, seq := 0 },
                 { packet := { data := 0, length := 0, priority := .Low, id := 0 }, seq := 1 },
                 { packet := { data := 0, length := 0, priority := .Low, id := 0 }, seq := 2 },
                 { packet := { data := 0, length := 0, priority := .Low, id := 0 }, seq := 3 }],
      head := 0, tail := 0, enable_stats := false,
      stats := { enqueue_attempts := 0, enqueue_successes := 0, dequeue_attempts := 0,
                 dequeue_successes := 0, batch_enqueues := 0, batch_dequeues := 0,
                 contention_events := 0 } }
    [.enq (Packet.withId 7), .deq]
    [OpResult.ok true, OpResult.got (some { data := 0, length := 0, priority := .Low, id := 7 })]
    { capacity := 4,
      buffer := [{ packet := { data := 0, length := 0, priority := .Low, id := 0 }, seq := 4 },
                 { packet := { data := 0, length := 0, priority := .Low, id := 0 }, seq := 1 },
                 { packet := { data := 0, length := 0, priority := .Low, id := 0 }, seq := 2 },
                 { packet := { data := 0, length := 0, priority := .Low, id := 0 }, seq := 3 }],
      head := 1, tail := 1, enable_stats := false,
      stats := { enqueue_attempts := 0, enqueue_successes := 0, dequeue_attempts := 0,
                 dequeue_successes := 0, batch_enqueues := 0, batch_dequeues := 0,
                 contention_events := 0 } }
    (by decide) (by decide)

/-- C2: every accepted positive capacity request n yields
capacity() = max(2, next_power_of_two(n)); the request 0 is rejected;
and a fresh queue has every slot's seq equal to its index and
head = tail = 0. -/
theorem claim_C2 :
    (∀ s : Bool, mkQueue 0 s = none) ∧
    (∀ (n : Nat) (s : Bool) (q : Queue), mkQueue n s = some q →
      q.capacityFn = max 2 (next_power_of_two_spec n) ∧
      q.head = 0 ∧ q.tail = 0 ∧
      ∀ i, i < q.capacityFn → (q.buffer.getD i default).seq = i) := by
  constructor
  · intro s
    rfl
  · intro n s q h
    obtain ⟨hcap, hh, ht, _, _, hbuf, hn0, hacc⟩ := mkQueue_some h
    refine ⟨?_, hh, ht, ?_⟩
    · show q.capacity = _
      rw [hcap]
      exact round_up_eq_spec hn0 (by rw [← hcap]; exact hacc)
    · intro i hi
      have hi2 : i < q.capacity := hi
      rw [hbuf, getD_range_map _ _ _ hi2]

/-- C2 witness: request 5 is accepted with capacity 8 = max(2, 8) and a
fresh state; request 0 is rejected. -/
theorem claim_C2_witness :
    mkQueue 0 true = none ∧
    ({ capacity := 8,
       buffer := [{ packet := { data := 0, length := 0, priority := .Low, id := 0 }, seq := 0 },
                  { packet := { data := 0, length := 0, priority := .Low, id := 0 }, seq := 1 },
                  { packet := { data := 0, length := 0, priority := .Low, id := 0 }, seq := 2 },
                  { packet := { data := 0, length := 0, priority := .Low, id := 0 }, seq := 3 },
                  { packet := { data := 0, length := 0, priority := .Low, id := 0 }, seq := 4 },
                  { packet := { data := 0, length := 0, priority := .Low, id := 0 }, seq := 5 },
                  { packet := { data := 0, length := 0, priority := .Low, id := 0 }, seq := 6 },
                  { packet := { data := 0, length := 0, priority := .Low, id := 0 }, seq := 7 }],
       head := 0, tail := 0, enable_stats := false,
       stats := { enqueue_attempts := 0, enqueue_successes := 0, dequeue_attempts := 0,
                  dequeue_successes := 0, batch_enqueues := 0, batch_dequeues := 0,
                  contention_events := 0 } } : Queue).capacityFn
      = max 2 (next_power_of_two_spec 5) := by
  refine ⟨claim_C2.1 true, ?_⟩
  exact (claim_C2.2 5 false
    { capacity := 8,
      buffer := [{ packet := { data := 0, length := 0, priority := .Low, id := 0 }, seq := 0 },
                 { packet := { data := 0, length := 0, priority := .Low, id := 0 }, seq := 1 },
                 { packet := { data := 0, length := 0, priority := .Low, id := 0 }, seq := 2 },
                 { packet := { data := 0, length := 0, priority := .Low, id := 0 }, seq := 3 },
                 { packet := { data := 0, length := 0, priority := .Low, id := 0 }, seq := 4 },
                 { packet := { data := 0, length := 0, priority := .Low, id := 0 }, seq := 5 },
                 { packet := { data := 0, length := 0, priority := .Low, id := 0 }, seq := 6 },
                 { packet := { data := 0, length := 0, priority := .Low, id := 0 }, seq := 7 }],
      head := 0, tail := 0, enable_stats := false,
      stats := { enqueue_attempts := 0, enqueue_successes := 0, dequeue_attempts := 0,
                 dequeue_successes := 0, batch_enqueues := 0, batch_dequeues := 0,
                 contention_events := 0 } } (by decide)).1

/-- C3: on a fresh capacity-4 queue, executed sequentially, enqueues of
ids 0,1,2,3 all return true; a fifth enqueue with id 999 returns false;
one dequeue returns the packet with id 0; re-enqueuing id 999 returns
true; and the four subsequent dequeues return ids 1, 2, 3, 999 in that
order. -/
theorem claim_C3 :
    ((mkQueue 4 false).bind fun q0 =>
      (runTrace q0 [.enq (Packet.withId 0), .enq (Packet.withId 1), .enq (Packet.withId 2),
        .enq (Packet.withId 3), .enq (Packet.withId 999), .deq, .enq (Packet.withId 999),
        .deq, .deq, .deq, .deq]).map Prod.fst)
    = some [.ok true, .ok true, .ok true, .ok true, .ok false,
        .got (some (Packet.withId 0)), .ok true, .got (some (Packet.withId 1)),
        .got (some (Packet.withId 2)), .got (some (Packet.withId 3)),
        .got (some (Packet.withId 999))] := by
  decide

/-- C4: on a fresh capacity-4 queue, executed sequentially,
enqueue_batch over 8 distinct-id packets returns 4; a subsequent
dequeue_batch into a writable buffer of length 8 returns 4; and the 4
dequeued packets are the first 4 input packets, in input order. -/
theorem claim_C4 :
    ((mkQueue 4 false).bind fun q0 =>
      (enqueue_batch q0 ((List.range 8).map Packet.withId)).bind fun r =>
      (dequeue_batch r.2 8).map fun s => (r.1, s.1, s.2.1))
    = some (4, 4, ((List.range 8).map Packet.withId).take 4) := by
  decide

/-- C5 counterexample: a packet with High priority and id 5 is, after
being moved from, not equal to the default-constructed packet — the
move operations do not reset the priority member. -/
theorem claim_C5_counterexample :
    ¬ (Packet.movedFrom { data := 0, length := 0, priority := .High, id := 5 }
        = { data := 0, length := 0, priority := .Low, id := 0 }) := by
  decide

/-- C5 (amended): after a packet p is moved from (move constructor or
move assignment, as used when packets move into or out of slots), its
payload pointer is null, its length is 0 and its id is 0, but its
priority keeps its previous value; p is therefore in the default zero
state if and only if its priority was Low. -/
theorem claim_C5 (p : Packet) :
    (p.movedFrom).data = 0 ∧ (p.movedFrom).length = 0 ∧ (p.movedFrom).id = 0 ∧
      (p.movedFrom).priority = p.priority ∧
      (p.movedFrom = { data := 0, length := 0, priority := .Low, id := 0 }
        ↔ p.priority = .Low) := by
  refine ⟨rfl, rfl, rfl, rfl, ?_, ?_⟩
  · intro h
    have := congrArg Packet.priority h
    simpa [Packet.movedFrom] using this
  · intro h
    unfold Packet.movedFrom
    rw [h]

/-- C6 counterexample: one invocation of the backoff at step counter
n = 80 performs the sleep but leaves the counter at 80 — it does not
increment it, contrary to the claim that every invocation increments
n. -/
theorem claim_C6_counterexample :
    (backoffStep 80).2 = 80 ∧ ¬ ((backoffStep 80).2 = 80 + 1) := by
  decide

/-- C6 (amended): one invocation of the backoff policy busy-spins for
2^n CPU-pause hints when 0 ≤ n < 16, yields once when 16 ≤ n < 80, and
sleeps 1 microsecond when n ≥ 80; an invocation increments n when
n < 80 and leaves n unchanged when n ≥ 80; reset() returns n to 0. -/
theorem claim_C6 (n : Nat) :
    (n < 16 → backoffStep n = (.spin (2 ^ n), n + 1)) ∧
    (16 ≤ n → n < 80 → backoffStep n = (.yield, n + 1)) ∧
    (80 ≤ n → backoffStep n = (.sleep 1, n)) ∧
    backoffReset = 0 := by
  refine ⟨?_, ?_, ?_, rfl⟩
  · intro h
    unfold backoffStep
    rw [if_pos h]
  · intro h1 h2
    unfold backoffStep
    rw [if_neg (by omega), if_pos (by omega)]
  · intro h
    unfold backoffStep
    rw [if_neg (by omega), if_neg (by omega)]

/-- C6 witness: the three regimes at n = 3, 20 and 99, and reset. -/
theorem claim_C6_witness :
    backoffStep 3 = (.spin 8, 4) ∧ backoffStep 20 = (.yield, 21) ∧
      backoffStep 99 = (.sleep 1, 99) ∧ backoffReset = 0 :=
  ⟨(claim_C6 3).1 (by decide), (claim_C6 20).2.1 (by decide) (by decide),
    (claim_C6 99).2.2.1 (by decide), (claim_C6 0).2.2.2⟩

/-- C7: from any sequentially reachable state, a single enqueue returns
false if and only if its snapshot satisfies tail − head ≥ capacity; on
that false return head, tail and every slot are unchanged (only the
attempt counter may move, and the failure is an ordinary boolean
return — the operation is total); and on the same condition
enqueue_batch returns a count smaller than the input size (namely 0)
without retrying internally, likewise leaving head, tail and the slots
unchanged. -/
theorem claim_C7 {n : Nat} {s : Bool} {q0 : Queue} {ops : List Op}
    {rs : List OpResult} {q : Queue}
    (hmk : mkQueue n s = some q0) (hrun : runTrace q0 ops = some (rs, q))
    (p : Packet) (ps : List Packet) (fuel : Nat) :
    (∀ q', enqueue (fuel + 1) q p = some (false, q') →
      q.capacity ≤ q.tail - q.head ∧ q'.head = q.head ∧ q'.tail = q.tail ∧
        q'.buffer = q.buffer) ∧
    (q.capacity ≤ q.tail - q.head →
      enqueue (fuel + 1) q p = some (false, withStats bumpEnqAttempts q) ∧
      (withStats bumpEnqAttempts q).head = q.head ∧
      (withStats bumpEnqAttempts q).tail = q.tail ∧
      (withStats bumpEnqAttempts q).buffer = q.buffer) ∧
    (q.capacity ≤ q.tail - q.head → ps ≠ [] →
      enqueue_batch q ps = some (0, withStats bumpBatchEnqueues q) ∧ 0 < ps.length ∧
      (withStats bumpBatchEnqueues q).head = q.head ∧
      (withStats bumpBatchEnqueues q).tail = q.tail ∧
      (withStats bumpBatchEnqueues q).buffer = q.buffer) := by
  obtain ⟨hwf, _, _, _, _⟩ := runTrace_reachable hmk hrun
  obtain ⟨b, q2, he, hwf2, _, _, hh, ht, hiff, hfalse, _⟩ := enqueue_total hwf p fuel
  refine ⟨?_, ?_, ?_⟩
  · intro q' hq'
    rw [he] at hq'
    simp only [Option.some.injEq, Prod.mk.injEq] at hq'
    obtain ⟨hb, hqq⟩ := hq'
    subst hb
    subst hqq
    have hfull : q.capacity ≤ q.tail - q.head := by
      rcases Nat.lt_or_ge (q.tail - q.head) q.capacity with hlt | hge
      · exact absurd (hiff.mpr hlt) (by simp)
      · exact hge
    have hq2 := hfalse rfl
    refine ⟨hfull, hh, ?_, ?_⟩
    · rw [ht]
      rfl
    · rw [hq2, withStats_buffer]
  · intro hfull
    have hb : b = false := by
      cases b with
      | false => rfl
      | true =>
        have := hiff.mp rfl
        omega
    subst hb
    have hq2 := hfalse rfl
    rw [hq2] at he
    exact ⟨he, by simp, by simp, by simp⟩
  · intro hfull hne
    have hempty : ¬ ps.isEmpty = true := by
      cases ps with
      | nil => exact absurd rfl hne
      | cons a l => simp
    have hfull1 : (withStats bumpBatchEnqueues q).capacity ≤
        (withStats bumpBatchEnqueues q).tail - (withStats bumpBatchEnqueues q).head := by
      simpa using hfull
    refine ⟨?_, ?_, by simp, by simp, by simp⟩
    · unfold enqueue_batch
      rw [if_neg hempty]
      simp only [enqueueBatchGo]
      rw [if_neg hempty]
      rw [if_pos hfull1]
    · cases ps with
      | nil => exact absurd rfl hne
      | cons a l => simp

/-- C7 witness: on the concrete full capacity-4 queue reached by batch
enqueuing four packets, a fifth single enqueue returns false changing
nothing but the attempt counter, and a batch enqueue of one packet
returns the short count 0. -/
theorem claim_C7_witness :
    (enqueue (0 + 1)
        { capacity := 4,
          buffer := [{ packet := { data := 0, length := 0, priority := .Low, id := 0 }, seq := 1 },
                     { packet := { data := 0, length := 0, priority := .Low, id := 1 }, seq := 2 },
                     { packet := { data := 0, length := 0, priority := .Low, id := 2 }, seq := 3 },
                     { packet := { data := 0, length := 0, priority := .Low, id := 3 }, seq := 4 }],
          head := 0, tail := 4, enable_stats := false,
          stats := { enqueue_attempts := 0, enqueue_successes := 0, dequeue_attempts := 0,
                     dequeue_successes := 0, batch_enqueues := 0, batch_dequeues := 0,
                     contention_events := 0 } } (Packet.withId 9)
      = some (false, withStats bumpEnqAttempts
        { capacity := 4,
          buffer := [{ packet := { data := 0, length := 0, priority := .Low, id := 0 }, seq := 1 },
                     { packet := { data := 0, length := 0, priority := .Low, id := 1 }, seq := 2 },
                     { packet := { data := 0, length := 0, priority := .Low, id := 2 }, seq := 3 },
                     { packet := { data := 0, length := 0, priority := .Low, id := 3 }, seq := 4 }],
          head := 0, tail := 4, enable_stats := false,
          stats := { enqueue_attempts := 0, enqueue_successes := 0, dequeue_attempts := 0,
                     dequeue_successes := 0, batch_enqueues := 0, batch_dequeues := 0,
                     contention_events := 0 } })) ∧
    (enqueue_batch
        { capacity := 4,
          buffer := [{ packet := { data := 0, length := 0, priority := .Low, id := 0 }, seq := 1 },
                     { packet := { data := 0, length := 0, priority := .Low, id := 1 }, seq := 2 },
                     { packet := { data := 0, length := 0, priority := .Low, id := 2 }, seq := 3 },
                     { packet := { data := 0, length := 0, priority := .Low, id := 3 }, seq := 4 }],
          head := 0, tail := 4, enable_stats := false,
          stats := { enqueue_attempts := 0, enqueue_successes := 0, dequeue_attempts := 0,
                     dequeue_successes := 0, batch_enqueues := 0, batch_dequeues := 0,
                     contention_events := 0 } } [Packet.withId 9]
      = some (0, withStats bumpBatchEnqueues
        { capacity := 4,
          buffer := [{ packet := { data := 0, length := 0, priority := .Low, id := 0 }, seq := 1 },
                     { packet := { data := 0, length := 0, priority := .Low, id := 1 }, seq := 2 },
                     { packet := { data := 0, length := 0, priority := .Low, id := 2 }, seq := 3 },
                     { packet := { data := 0, length := 0, priority := .Low, id := 3 }, seq := 4 }],
          head := 0, tail := 4, enable_stats := false,
          stats := { enqueue_attempts := 0, enqueue_successes := 0, dequeue_attempts := 0,
                     dequeue_successes := 0, batch_enqueues := 0, batch_dequeues := 0,
                     contention_events := 0 } })) := by
  have h := @claim_C7 4 false
    { capacity := 4,
      buffer := [{ packet := { data := 0, length := 0, priority := .Low, id := 0 }, seq := 0 },
                 { packet := { data := 0, length := 0, priority := .Low, id := 0 }, seq := 1 },
                 { packet := { data := 0, length := 0, priority := .Low, id := 0 }, seq := 2 },
                 { packet := { data := 0, length := 0, priority := .Low, id := 0 }, seq := 3 }],
      head := 0, tail := 0, enable_stats := false,
      stats := { enqueue_attempts := 0, enqueue_successes := 0, dequeue_attempts := 0,
                 dequeue_successes := 0, batch_enqueues := 0, batch_dequeues := 0,
                 contention_events := 0 } }
    [.enqBatch [Packet.withId 0, Packet.withId 1, Packet.withId 2, Packet.withId 3]]
    [.enqCnt 4]
    { capacity := 4,
      buffer := [{ packet := { data := 0, length := 0, priority := .Low, id := 0 }, seq := 1 },
                 { packet := { data := 0, length := 0, priority := .Low, id := 1 }, seq := 2 },
                 { packet := { data := 0, length := 0, priority := .Low, id := 2 }, seq := 3 },
                 { packet := { data := 0, length := 0, priority := .Low, id := 3 }, seq := 4 }],
      head := 0, tail := 4, enable_stats := false,
      stats := { enqueue_attempts := 0, enqueue_successes := 0, dequeue_attempts := 0,
                 dequeue_successes := 0, batch_enqueues := 0, batch_dequeues := 0,
                 contention_events := 0 } }
    (by decide) (by decide) (Packet.withId 9) [Packet.withId 9] 0
  exact ⟨(h.2.1 (by decide)).1, (h.2.2 (by decide) (by decide)).1⟩

/-- C8: for every queue constructed with statistics enabled, after any
sequential history the counters satisfy
enqueue_successes ≤ enqueue_attempts and
dequeue_successes ≤ dequeue_attempts. -/
theorem claim_C8 {n : Nat} {q0 : Queue} {ops : List Op} {rs : List OpResult} {q : Queue}
    (hmk : mkQueue n true = some q0) (hrun : runTrace q0 ops = some (rs, q)) :
    q.stats.enqueue_successes ≤ q.stats.enqueue_attempts ∧
      q.stats.dequeue_successes ≤ q.stats.dequeue_attempts := by
  obtain ⟨_, _, _, _, hok⟩ := runTrace_reachable hmk hrun
  exact hok

/-- C8 witness: the bound at the concrete stats-enabled capacity-2
queue after two successful enqueues, one failed enqueue and one
dequeue (attempts 3/1, successes 2/1). -/
theorem claim_C8_witness :
    ({ enqueue_attempts := 3, enqueue_successes := 2, dequeue_attempts := 1,
       dequeue_successes := 1, batch_enqueues := 0, batch_dequeues := 0,
       contention_events := 0 } : QueueStats).enqueue_successes
      ≤ ({ enqueue_attempts := 3, enqueue_successes := 2, dequeue_attempts := 1,
           dequeue_successes := 1, batch_enqueues := 0, batch_dequeues := 0,
           contention_events := 0 } : QueueStats).enqueue_attempts ∧
    ({ enqueue_attempts := 3, enqueue_successes := 2, dequeue_attempts := 1,
       dequeue_successes := 1, batch_enqueues := 0, batch_dequeues := 0,
       contention_events := 0 } : QueueStats).dequeue_successes
      ≤ ({ enqueue_attempts := 3, enqueue_successes := 2, dequeue_attempts := 1,
           dequeue_successes := 1, batch_enqueues := 0, batch_dequeues := 0,
           contention_events := 0 } : QueueStats).dequeue_attempts :=
  @claim_C8 2
    { capacity := 2,
      buffer := [{ packet := { data := 0, length := 0, priority := .Low, id := 0 }, seq := 0 },
                 { packet := { data := 0, length := 0, priority := .Low, id := 0 }, seq := 1 }],
      head := 0, tail := 0, enable_stats := true,
      stats := { enqueue_attempts := 0, enqueue_successes := 0, dequeue_attempts := 0,
                 dequeue_successes := 0, batch_enqueues := 0, batch_dequeues := 0,
                 contention_events := 0 } }
    [.enq (Packet.withId 0), .enq (Packet.withId 1), .enq (Packet.withId 2), .deq]
    [.ok true, .ok true, .ok false,
      .got (some { data := 0, length := 0, priority := .Low, id := 0 })]
    { capacity := 2,
      buffer := [{ packet := { data := 0, length := 0, priority := .Low, id := 0 }, seq := 2 },
                 { packet := { data := 0, length := 0, priority := .Low, id := 1 }, seq := 2 }],
      head := 1, tail := 2, enable_stats := true,
      stats := { enqueue_attempts := 3, enqueue_successes := 2, dequeue_attempts := 1,
                 dequeue_successes := 1, batch_enqueues := 0, batch_dequeues := 0,
                 contention_events := 0 } }
    (by decide) (by decide)

/-- C9: a call to try_enqueue or try_dequeue — successful or not, stats
enabled or not — leaves the entire statistics block (all seven
counters) unchanged: neither function ever touches stats_. -/
theorem claim_C9 (q : Queue) (p : Packet) :
    (try_enqueue q p).2.stats = q.stats ∧ (try_dequeue q).2.stats = q.stats := by
  constructor
  · simp only [try_enqueue]
    split
    · rfl
    · rfl
  · simp only [try_dequeue]
    split
    · rfl
    · rfl

/-- C10: from every sequentially reachable state, each of enqueue,
dequeue, enqueue_batch and dequeue_batch terminates — the single-item
loops decide within one iteration (fuel 1), and the batch loops within
input-length + 1 outer iterations — returning a boolean, an optional
packet, or a (possibly short) count. -/
theorem claim_C10 {n : Nat} {s : Bool} {q0 : Queue} {ops : List Op}
    {rs : List OpResult} {q : Queue}
    (hmk : mkQueue n s = some q0) (hrun : runTrace q0 ops = some (rs, q))
    (p : Packet) (ps : List Packet) (bufLen : Nat) :
    (enqueue 1 q p).isSome = true ∧ (dequeue 1 q).isSome = true ∧
      (enqueue_batch q ps).isSome = true ∧ (dequeue_batch q bufLen).isSome = true := by
  obtain ⟨hwf, _, _, _, _⟩ := runTrace_reachable hmk hrun
  obtain ⟨b, q1, h1, _⟩ := enqueue_total hwf p 0
  obtain ⟨r, q2, h2, _⟩ := dequeue_total hwf 0
  obtain ⟨n3, q3, h3, _⟩ := enqueue_batch_total hwf ps
  obtain ⟨n4, out4, q4, h4, _⟩ := dequeue_batch_total hwf bufLen
  simp only [Nat.zero_add] at h1 h2
  exact ⟨by rw [h1]; rfl, by rw [h2]; rfl, by rw [h3]; rfl, by rw [h4]; rfl⟩

/-- C10 witness: all four operations decide on the fresh capacity-4
queue. -/
theorem claim_C10_witness :
    (enqueue 1
        { capacity := 4,
          buffer := [{ packet := { data := 0, length := 0, priority := .Low, id := 0 }, seq := 0 },
                     { packet := { data := 0, length := 0, priority := .Low, id := 0 }, seq := 1 },
                     { packet := { data := 0, length := 0, priority := .Low, id := 0 }, seq := 2 },
                     { packet := { data := 0, length := 0, priority := .Low, id := 0 }, seq := 3 }],
          head := 0, tail := 0, enable_stats := false,
          stats := { enqueue_attempts := 0, enqueue_successes := 0, dequeue_attempts := 0,
                     dequeue_successes := 0, batch_enqueues := 0, batch_dequeues := 0,
                     contention_events := 0 } } (Packet.withId 1)).isSome = true ∧
    (dequeue 1
        { capacity := 4,
          buffer := [{ packet := { data := 0, length := 0, priority := .Low, id := 0 }, seq := 0 },
                     { packet := { data := 0, length := 0, priority := .Low, id := 0 }, seq := 1 },
                     { packet := { data := 0, length := 0, priority := .Low, id := 0 }, seq := 2 },
                     { packet := { data := 0, length := 0, priority := .Low, id := 0 }, seq := 3 }],
          head := 0, tail := 0, enable_stats := false,
          stats := { enqueue_attempts := 0, enqueue_successes := 0, dequeue_attempts := 0,
                     dequeue_successes := 0, batch_enqueues := 0, batch_dequeues := 0,
                     contention_events := 0 } }).isSome = true ∧
    (enqueue_batch
        { capacity := 4,
          buffer := [{ packet := { data := 0, length := 0, priority := .Low, id := 0 }, seq := 0 },
                     { packet := { data := 0, length := 0, priority := .Low, id := 0 }, seq := 1 },
                     { packet := { data := 0, length := 0, priority := .Low, id := 0 }, seq := 2 },
                     { packet := { data := 0, length := 0, priority := .Low, id := 0 }, seq := 3 }],
          head := 0, tail := 0, enable_stats := false,
          stats := { enqueue_attempts := 0, enqueue_successes := 0, dequeue_attempts := 0,
                     dequeue_successes := 0, batch_enqueues := 0, batch_dequeues := 0,
                     contention_events := 0 } } [Packet.withId 2]).isSome = true ∧
    (dequeue_batch
        { capacity := 4,
          buffer := [{ packet := { data := 0, length := 0, priority := .Low, id := 0 }, seq := 0 },
                     { packet := { data := 0, length := 0, priority := .Low, id := 0 }, seq := 1 },
                     { packet := { data := 0, length := 0, priority := .Low, id := 0 }, seq := 2 },
                     { packet := { data := 0, length := 0, priority := .Low, id := 0 }, seq := 3 }],
          head := 0, tail := 0, enable_stats := false,
          stats := { enqueue_attempts := 0, enqueue_successes := 0, dequeue_attempts := 0,
                     dequeue_successes := 0, batch_enqueues := 0, batch_dequeues := 0,
                     contention_events := 0 } } 3).isSome = true :=
  @claim_C10 4 false
    { capacity := 4,
      buffer := [{ packet := { data := 0, length := 0, priority := .Low, id := 0 }, seq := 0 },
                 { packet := { data := 0, length := 0, priority := .Low, id := 0 }, seq := 1 },
                 { packet := { data := 0, length := 0, priority := .Low, id := 0 }, seq := 2 },
                 { packet := { data := 0, length := 0, priority := .Low, id := 0 }, seq := 3 }],
      head := 0, tail := 0, enable_stats := false,
      stats := { enqueue_attempts := 0, enqueue_successes := 0, dequeue_attempts := 0,
                 dequeue_successes := 0, batch_enqueues := 0, batch_dequeues := 0,
                 contention_events := 0 } }
    []
    []
    { capacity := 4,
      buffer := [{ packet := { data := 0, length := 0, priority := .Low, id := 0 }, seq := 0 },
                 { packet := { data := 0, length := 0, priority := .Low, id := 0 }, seq := 1 },
                 { packet := { data := 0, length := 0, priority := .Low, id := 0 }, seq := 2 },
                 { packet := { data := 0, length := 0, priority := .Low, id := 0 }, seq := 3 }],
      head := 0, tail := 0, enable_stats := false,
      stats := { enqueue_attempts := 0, enqueue_successes := 0, dequeue_attempts := 0,
                 dequeue_successes := 0, batch_enqueues := 0, batch_dequeues := 0,
                 contention_events := 0 } }
    (by decide) (by decide) (Packet.withId 1) [Packet.withId 2] 3

end PQ
